import Mathlib

/-!
Shallow embedding of the Mixture-of-Experts router
(`megatron/core/transformer/moe/router.py`) and proofs about its routing
strategies.

Modelling conventions:
* Tensors are rational-valued matrices (`List (List ℚ)`) together with a
  dtype tag and a `requires_grad` flag (`MTensor`).  The dtype tag records
  the precision an operation computes in (`torch.softmax(..., dtype=float32)`
  yields a `.f32`-tagged tensor, `.type_as` re-tags, `.to(float32)` re-tags);
  the grad flag records whether the tensor is attached to the autograd graph
  (`torch.no_grad()` blocks produce detached tensors).
* The exponential used by `softmax`/`sigmoid` is a parameter `E : ℚ → ℚ`;
  theorems assume exactly the properties of the real exponential they need
  (positivity).  `modelExp` is a computable strictly monotone positive
  instance used to evaluate concrete examples; since `softmax` and `topk`
  only depend on `E` through order and positivity, the selected indices for
  the concrete examples agree with the ones the floating-point code computes.
* Randomness (the input-jitter sample and the sigmoid-path dropout mask) is
  supplied by oracle functions of the element position, which is the standard
  deterministic embedding of a stochastic kernel.
* `torch.topk` selects the k largest entries of each row, repeatedly taking
  the greatest remaining value (earliest index on ties), which matches the
  sorted output of `torch.topk` on distinct values.
-/

namespace MoERouter

attribute [local semireducible] Rat.mul Rat.add Rat.sub Rat.inv Rat.ofScientific

instance {e a : Type} [DecidableEq e] [DecidableEq a] : DecidableEq (Except e a)
  | Except.ok x, Except.ok y =>
    if h : x = y then Decidable.isTrue (by rw [h])
    else Decidable.isFalse (by intro hc; cases hc; exact h rfl)
  | Except.ok _, Except.error _ => Decidable.isFalse (by intro hc; cases hc)
  | Except.error _, Except.ok _ => Decidable.isFalse (by intro hc; cases hc)
  | Except.error x, Except.error y =>
    if h : x = y then Decidable.isTrue (by rw [h])
    else Decidable.isFalse (by intro hc; cases hc; exact h rfl)

/-- Floating point dtype tags (only the tags matter for the embedding). -/
inductive DType | bf16 | f16 | f32 | f64
deriving DecidableEq, Repr

/-- Rational-valued matrix, the value content of a 2-D tensor. -/
abbrev Mat := List (List ℚ)

/-- A 2-D tensor: values plus dtype tag plus autograd-attachment flag. -/
structure MTensor where
  data : Mat
  dtype : DType
  reqGrad : Bool
deriving DecidableEq, Repr

/-- `moe_router_load_balancing_type` values recognized by `TopKRouter.routing`. -/
inductive RoutingType | rt_none | sinkhorn | aux_loss | sigmoid
deriving DecidableEq, Repr

/-- `moe_aux_loss_type` values recognized by the `aux_loss` branch. -/
inductive AuxLossType | switch | btx | btx_nograd
deriving DecidableEq, Repr

/-- `moe_router_type` values recognized by `aux_loss_load_balancing`. -/
inductive RouterType | mixtral | st | grouped
deriving DecidableEq, Repr

/-- The slice of `TransformerConfig` that the router reads. -/
structure TransformerConfig where
  num_moe_experts : ℕ
  moe_router_topk : ℕ
  moe_router_load_balancing_type : RoutingType
  moe_aux_loss_type : AuxLossType
  moe_router_type : RouterType
  moe_aux_loss_coeff : ℚ
  moe_z_loss_coeff : Option ℚ
  moe_input_jitter_eps : Option ℚ
  moe_dropout : ℚ
  moe_group_size : ℕ
  moe_token_dropping : Bool
deriving DecidableEq, Repr

/-- Errors the router can raise. -/
inductive RtError | assertionError | valueError | notImplementedError
deriving DecidableEq, Repr

/-- Observable tensor computations, used to order computation against raises. -/
inductive Ev | ev_gating | ev_zloss | ev_jitter | ev_strategy
deriving DecidableEq, Repr

/-! ## List-level numeric kernels -/

/-- Index of the greatest value of `row` among the candidate indices
(first candidate wins ties), the selection step of `torch.topk`. -/
def argmaxIdx (row : List ℚ) : List ℕ → Option ℕ
  | [] => none
  | i :: rest =>
    match argmaxIdx row rest with
    | none => some i
    | some j => if row.getD i 0 < row.getD j 0 then some j else some i

/-- Repeatedly select the greatest remaining candidate, `k` times. -/
def topkIdxGo (row : List ℚ) : ℕ → List ℕ → List ℕ
  | 0, _ => []
  | k + 1, cand =>
    match argmaxIdx row cand with
    | none => []
    | some j => j :: topkIdxGo row k (cand.erase j)

/-- Indices returned by `torch.topk(row, k)`: the positions of the `k`
largest entries, in decreasing value order (earliest index on ties). -/
def topkIdxRow (row : List ℚ) (k : ℕ) : List ℕ :=
  topkIdxGo row k (List.range row.length)

/-- Values returned by `torch.topk(row, k)`. -/
def topkValRow (row : List ℚ) (k : ℕ) : List ℚ :=
  (topkIdxRow row k).map (fun i => row.getD i 0)

/-- One row of `torch.softmax(..., dim=-1)` with exponential model `E`. -/
def softmaxRow (E : ℚ → ℚ) (row : List ℚ) : List ℚ :=
  row.map (fun x => E x / (row.map E).sum)

/-- `torch.sigmoid` on one scalar, with exponential model `E`. -/
def sigmoidQ (E : ℚ → ℚ) (x : ℚ) : ℚ := 1 / (1 + E (-x))

/-- Dot product of two vectors (`a @ b`). -/
def dotQ (a b : List ℚ) : ℚ := ((a.zip b).map (fun p => p.1 * p.2)).sum

/-- Column means of a matrix (`m.mean(0)`). -/
def meanCol (m : Mat) : List ℚ :=
  match m with
  | [] => []
  | r :: _ => (List.range r.length).map (fun j =>
      ((r :: m.tail).map (fun row => row.getD j 0)).sum / (r :: m.tail).length)

/-- In-place `scatter_` on one row: write `vals` at positions `idx`. -/
def scatterRow (zrow : List ℚ) (idx : List ℕ) (vals : List ℚ) : List ℚ :=
  (idx.zip vals).foldl (fun acc p => acc.set p.1 p.2) zrow

/-- `x.view(-1, n)` on row-major data: re-slice the flattened entries into
rows of length `n`. -/
def reshapeRows (n : ℕ) (m : Mat) : Mat :=
  (List.range (m.flatten.length / n)).map (fun t => (m.flatten.drop (t * n)).take n)

/-! ## Tensor-level operations -/

/-- `torch.softmax(t, dim=-1, dtype=torch.float32)`: rows softmaxed, computed
in (and tagged) 32-bit precision. -/
def softmax_f32 (E : ℚ → ℚ) (t : MTensor) : MTensor :=
  { data := t.data.map (softmaxRow E), dtype := DType.f32, reqGrad := t.reqGrad }

/-- `a.type_as(b)`: cast `a` to `b`'s dtype. -/
def type_as (a b : MTensor) : MTensor := { a with dtype := b.dtype }

/-- `t.to(dtype=torch.float32)`. -/
def to_f32 (t : MTensor) : MTensor := { t with dtype := DType.f32 }

/-- `torch.sigmoid(t)`: elementwise, dtype preserved. -/
def sigmoidT (E : ℚ → ℚ) (t : MTensor) : MTensor :=
  { t with data := t.data.map (List.map (sigmoidQ E)) }

/-- Detach a tensor from the autograd graph (result of a `torch.no_grad()`
block). -/
def detachT (t : MTensor) : MTensor := { t with reqGrad := false }

/-- `torch.topk(t, k, dim=1)`: per-row top-k values (a tensor keeping `t`'s
dtype and grad flag) and indices. -/
def topkT (t : MTensor) (k : ℕ) : MTensor × List (List ℕ) :=
  ({ t with data := t.data.map (fun row => topkValRow row k) },
   t.data.map (fun row => topkIdxRow row k))

/-- `torch.gather(t, 1, idx)`: output has `idx`'s shape, entries read from
`t` at the gathered positions. -/
def gatherT (t : MTensor) (idx : List (List ℕ)) : MTensor :=
  { t with data := (List.range idx.length).map (fun r =>
      (idx.getD r []).map (fun i => (t.data.getD r []).getD i 0)) }

/-- `torch.zeros_like(t)`: zero values, `t`'s dtype, detached. -/
def zerosLike (t : MTensor) : MTensor :=
  { data := t.data.map (List.map (fun _ => 0)), dtype := t.dtype, reqGrad := false }

/-- `z.scatter_(-1, idx, vals)`: write `vals`'s rows into `z`'s rows at the
index positions; gradient flows through the scattered values. -/
def scatterT (z : MTensor) (idx : List (List ℕ)) (vals : MTensor) : MTensor :=
  { data := (List.range z.data.length).map (fun r =>
      scatterRow (z.data.getD r []) (idx.getD r []) ((vals.data.getD r []))),
    dtype := z.dtype,
    reqGrad := z.reqGrad || vals.reqGrad }

/-- `t.view(-1, n)`. -/
def viewT (n : ℕ) (t : MTensor) : MTensor := { t with data := reshapeRows n t.data }

/-- Torch type promotion of a float tensor multiplied against the float32
jitter sample: reduced-precision dtypes are promoted to float32, float64
stays float64. -/
def promoteWithF32 (d : DType) : DType :=
  if d = DType.f64 then DType.f64 else DType.f32

/-- `input * jitter_sample`, the jitter sample drawn per element by the
oracle `jo`.  The sampler is built from `torch.tensor(1.0 - eps)` and
`torch.tensor(1.0 + eps)`, which carry the float32 default dtype, so the
product promotes reduced-precision inputs to float32 (and keeps float64)
by torch binary type promotion. -/
def jitterMul (jo : ℕ → ℕ → ℚ) (t : MTensor) : MTensor :=
  { data := t.data.enum.map (fun p =>
      p.2.enum.map (fun q => q.2 * jo p.1 q.1))
    dtype := promoteWithF32 t.dtype
    reqGrad := t.reqGrad }

/-- Modelled from the spec: `megatron.core.transformer.utils.attention_mask_func`
is not part of the sources; per the spec it overwrites the masked logit
positions with a large negative value before the activation.  The mask is the
per-element Boolean oracle `mo`. -/
def attention_mask_func (t : MTensor) (mo : ℕ → ℕ → Bool) : MTensor :=
  { t with data := t.data.enum.map (fun p =>
      p.2.enum.map (fun q => if mo p.1 q.1 then -10000 else q.2)) }

/-- `torch.nn.functional.one_hot(indices, num_classes).sum(dim=1)`: per token,
the multiplicity of each expert id among the selected indices. -/
def oneHotMask (indices : List (List ℕ)) (n : ℕ) : List (List ℕ) :=
  indices.map (fun row => (List.range n).map (fun e => row.count e))

/-- `torch.nn.functional.linear(input, weight)`: `input @ weight.T`. -/
def linearT (input : MTensor) (weight : Mat) : MTensor :=
  { input with data := input.data.map (fun row => weight.map (fun wrow => dotQ row wrow)) }

/-! ## `TopKRouter` state and strategies -/

/-- The mutable state a constructed `TopKRouter` holds (gate weight aside):
the configuration, the copied `topk` and `routing_type` fields, and whether
the lazily-constructed input-jitter sampler exists yet. -/
structure TopKRouterState where
  config : TransformerConfig
  topk : ℕ
  routing_type : RoutingType
  input_jitter : Bool
deriving DecidableEq, Repr

/-- `TopKRouter.__init__`: asserts `config.moe_token_dropping is False`
before any of the router's routing fields are set, then copies `topk` and
`routing_type` from the configuration and leaves the jitter sampler
unconstructed. -/
def TopKRouter_init (config : TransformerConfig) : Except RtError TopKRouterState :=
  if config.moe_token_dropping = false then
    Except.ok
      { config := config
        topk := config.moe_router_topk
        routing_type := config.moe_router_load_balancing_type
        input_jitter := false }
  else Except.error RtError.assertionError

/-- The local `_sinkhorn_activation` closure of
`TopKRouter.sinkhorn_load_balancing`: sigmoid when `topk == 1`, otherwise a
32-bit softmax cast back to the logits dtype. -/
def sinkhorn_activation (E : ℚ → ℚ) (topk : ℕ) (logits : MTensor) : MTensor :=
  if topk = 1 then sigmoidT E logits
  else type_as (softmax_f32 E logits) logits

/-- Apply a sinkhorn normalization (supplied as the parameter `sink`, the
`sinkhorn` helper of `moe_utils` is not part of the sources) to the values of
a tensor. -/
def sinkApply (sink : Mat → Mat) (t : MTensor) : MTensor :=
  { t with data := sink t.data }

/-- `TopKRouter.sinkhorn_load_balancing`.  Asserts the aux-loss coefficient
is zero; in training mode, top-k indices are taken from the detached sinkhorn
normalization of the fp32-promoted logits and the scores are gathered from
the activation of the original logits; in evaluation mode, both scores and
indices come from top-k of the activated logits. -/
def sinkhorn_load_balancing (E : ℚ → ℚ) (sink : Mat → Mat)
    (config : TransformerConfig) (training : Bool) (topk : ℕ)
    (logits : MTensor) : Except RtError (MTensor × List (List ℕ)) :=
  if config.moe_aux_loss_coeff = 0 then
    if training then
      let norm_logits := detachT (sinkApply sink (to_f32 logits))
      let indices := (topkT norm_logits topk).2
      let activated := sinkhorn_activation E topk logits
      Except.ok (gatherT activated indices, indices)
    else
      let activated := sinkhorn_activation E topk logits
      Except.ok ((topkT activated topk).1, (topkT activated topk).2)
  else Except.error RtError.assertionError

/-- The auxiliary-loss observation recorded by `apply_aux_loss`: the
probability tensor handed to the loss function and the loss value. -/
structure AuxObs where
  lossProbs : MTensor
  auxLoss : ℚ
deriving DecidableEq, Repr

/-- `TopKRouter.apply_aux_loss`: build the one-hot-summed selection mask,
evaluate the loss function (`switch_load_balancing_loss_func`, not part of
the sources, is the parameter `lossF`), and attach the loss to the
activation by `MoEAuxLossAutoScaler.apply`, which is the identity on the
forward value. -/
def apply_aux_loss (lossF : Mat → List (List ℕ) → ℚ → ℚ) (num_experts : ℕ)
    (coeff : ℚ) (probs : MTensor) (indices : List (List ℕ))
    (activation : MTensor) : MTensor × AuxObs :=
  let mask := oneHotMask indices num_experts
  (activation, { lossProbs := probs, auxLoss := lossF probs.data mask coeff })

/-- `TopKRouter.sigmoid_load_balancing`.  In training with a nonzero dropout
rate, a Bernoulli mask overwrites logit positions with a large negative
value (and the masked tensor replaces `logits` for everything that
follows); scores and indices are top-k of the elementwise sigmoid; the
32-bit softmax of the (possibly masked) logits feeds the balancing loss. -/
def sigmoid_load_balancing (E : ℚ → ℚ) (lossF : Mat → List (List ℕ) → ℚ → ℚ)
    (config : TransformerConfig) (training : Bool) (topk : ℕ)
    (mo : ℕ → ℕ → Bool) (logits : MTensor) :
    MTensor × List (List ℕ) × AuxObs :=
  let logits :=
    if config.moe_dropout ≠ 0 ∧ training = true then attention_mask_func logits mo
    else logits
  let probs := sigmoidT E logits
  let scores := (topkT probs topk).1
  let indices := (topkT probs topk).2
  let r := apply_aux_loss lossF config.num_moe_experts config.moe_aux_loss_coeff
      (softmax_f32 E logits) indices scores
  (r.1, indices, r.2)

/-- The per-row index computation of `grouped_router`: view the row as
`moe_group_size` groups of `num_moe_experts / moe_group_size` experts, top-k
within each group, offset the local indices by `group_index * group_size`,
and flatten. -/
def groupedIdxRow (g gn gk : ℕ) (row : List ℚ) : List ℕ :=
  ((List.range g).map (fun j =>
    (topkIdxRow ((row.drop (j * gn)).take gn) gk).map (fun i => i + j * gn))).flatten

/-- The per-row score computation of `grouped_router`: top-k values within
each group, flattened. -/
def groupedValRow (g gn gk : ℕ) (row : List ℚ) : List ℚ :=
  ((List.range g).map (fun j => topkValRow ((row.drop (j * gn)).take gn) gk)).flatten

/-- `grouped_router`: full 32-bit softmax over all experts, per-group top-k
on the probabilities, local indices offset back to global expert ids.
Returns `(probs, scores, adjusted_indices)`; note the scores keep the
dtype of `probs` (32-bit), no cast back occurs. -/
def grouped_router (E : ℚ → ℚ) (logits : MTensor)
    (num_moe_experts topk moe_group_size : ℕ) :
    MTensor × MTensor × List (List ℕ) :=
  let probs := softmax_f32 E logits
  let gn := num_moe_experts / moe_group_size
  let gk := topk / moe_group_size
  (probs,
   { data := probs.data.map (groupedValRow moe_group_size gn gk)
     dtype := probs.dtype
     reqGrad := probs.reqGrad },
   probs.data.map (groupedIdxRow moe_group_size gn gk))

/-- `TopKRouter.aux_loss_load_balancing`: dispatch on `moe_router_type`
(`mixtral`, `st`, `grouped`), then attach the balancing loss via
`apply_aux_loss`. -/
def aux_loss_load_balancing (E : ℚ → ℚ) (lossF : Mat → List (List ℕ) → ℚ → ℚ)
    (config : TransformerConfig) (topk : ℕ) (logits : MTensor) :
    MTensor × List (List ℕ) × AuxObs :=
  match config.moe_router_type with
  | RouterType.mixtral =>
    let top_logits := (topkT logits topk).1
    let indices := (topkT logits topk).2
    let scores := type_as (softmax_f32 E top_logits) logits
    let probs := softmax_f32 E logits
    let r := apply_aux_loss lossF config.num_moe_experts config.moe_aux_loss_coeff
        probs indices scores
    (r.1, indices, r.2)
  | RouterType.st =>
    let probs := type_as (softmax_f32 E logits) logits
    let scores := (topkT probs topk).1
    let indices := (topkT probs topk).2
    let r := apply_aux_loss lossF config.num_moe_experts config.moe_aux_loss_coeff
        probs indices scores
    (r.1, indices, r.2)
  | RouterType.grouped =>
    let g := grouped_router E logits config.num_moe_experts topk config.moe_group_size
    let r := apply_aux_loss lossF config.num_moe_experts config.moe_aux_loss_coeff
        g.1 g.2.2 g.2.1
    (r.1, g.2.2, r.2)

/-- The scatter-reconstruction of `TopKRouter.btx_aux_loss_load_balancing`:
the top-k softmax values written back into their expert positions in a zero
tensor, computed under `torch.no_grad()` exactly when the aux-loss type is
`btx_nograd`. -/
def btx_scattered (config : TransformerConfig) (probs : MTensor)
    (indices : List (List ℕ)) (scores32 : MTensor) : MTensor :=
  if config.moe_aux_loss_type = AuxLossType.btx_nograd then
    detachT (scatterT (zerosLike probs) indices scores32)
  else scatterT (zerosLike probs) indices scores32

/-- `TopKRouter.btx_aux_loss_load_balancing`: top-k raw logits, 32-bit
softmax of the top-k values for scores (cast back to the logits dtype),
and the BTX loss `coeff * N * scattered.mean(0) @ probs.mean(0)` attached
by the forward-identity `MoEAuxLossAutoScaler.apply`. -/
def btx_aux_loss_load_balancing (E : ℚ → ℚ) (config : TransformerConfig)
    (topk : ℕ) (logits : MTensor) : MTensor × List (List ℕ) × ℚ :=
  let top_logits := (topkT logits topk).1
  let indices := (topkT logits topk).2
  let scores32 := softmax_f32 E top_logits
  let probs := softmax_f32 E logits
  let top_logits_scattered := btx_scattered config probs indices scores32
  let aux_loss := config.moe_aux_loss_coeff * (config.num_moe_experts : ℚ) *
      dotQ (meanCol top_logits_scattered.data) (meanCol probs.data)
  let scores := type_as scores32 logits
  (scores, indices, aux_loss)

/-- `TopKRouter.apply_z_loss`: when a z-loss coefficient is configured, the
z-loss is computed (one tensor computation, recorded as an event) and
attached by `MoEAuxLossAutoScaler.apply`, the identity on the forward
value. -/
def apply_z_loss (config : TransformerConfig) (logits : MTensor) :
    List Ev × MTensor :=
  match config.moe_z_loss_coeff with
  | some _ => ([Ev.ev_zloss], logits)
  | none => ([], logits)

/-- `TopKRouter.apply_input_jitter`: when an epsilon is configured, lazily
construct the uniform sampler over `[1-eps, 1+eps]` on first use, then
multiply the input by a fresh sample (elementwise, via the oracle `jo`).
There is no training-mode check. -/
def apply_input_jitter (st : TopKRouterState) (jo : ℕ → ℕ → ℚ)
    (input : MTensor) : TopKRouterState × List Ev × MTensor :=
  match st.config.moe_input_jitter_eps with
  | some _ =>
    ({ st with input_jitter := true }, [Ev.ev_jitter], jitterMul jo input)
  | none => (st, [], input)

/-- `TopKRouter.routing`: view the logits as `(T, num_experts)`, apply
z-loss, apply input jitter, then dispatch on `routing_type` (with the
`aux_loss` branch further dispatching on whether the aux-loss type is
`switch` or a `btx` variant). -/
def routing (E : ℚ → ℚ) (sink : Mat → Mat)
    (lossF : Mat → List (List ℕ) → ℚ → ℚ) (st : TopKRouterState)
    (training : Bool) (jo : ℕ → ℕ → ℚ) (mo : ℕ → ℕ → Bool)
    (logits0 : MTensor) :
    TopKRouterState × List Ev × Except RtError (MTensor × List (List ℕ)) :=
  let logits1 := viewT st.config.num_moe_experts logits0
  let z := apply_z_loss st.config logits1
  let j := apply_input_jitter st jo z.2
  let st1 := j.1
  let evs := z.1 ++ j.2.1
  let logits := j.2.2
  match st.routing_type with
  | RoutingType.sinkhorn =>
    match sinkhorn_load_balancing E sink st.config training st.topk logits with
    | Except.ok si => (st1, evs ++ [Ev.ev_strategy], Except.ok si)
    | Except.error e => (st1, evs, Except.error e)
  | RoutingType.aux_loss =>
    match st.config.moe_aux_loss_type with
    | AuxLossType.switch =>
      let r := aux_loss_load_balancing E lossF st.config st.topk logits
      (st1, evs ++ [Ev.ev_strategy], Except.ok (r.1, r.2.1))
    | AuxLossType.btx =>
      let r := btx_aux_loss_load_balancing E st.config st.topk logits
      (st1, evs ++ [Ev.ev_strategy], Except.ok (r.1, r.2.1))
    | AuxLossType.btx_nograd =>
      let r := btx_aux_loss_load_balancing E st.config st.topk logits
      (st1, evs ++ [Ev.ev_strategy], Except.ok (r.1, r.2.1))
  | RoutingType.rt_none =>
    let top_logits := (topkT logits st.topk).1
    let indices := (topkT logits st.topk).2
    let scores := type_as (softmax_f32 E top_logits) logits
    (st1, evs ++ [Ev.ev_strategy], Except.ok (scores, indices))
  | RoutingType.sigmoid =>
    let r := sigmoid_load_balancing E lossF st.config training st.topk mo logits
    (st1, evs ++ [Ev.ev_strategy], Except.ok (r.1, r.2.1))

/-- `Router.forward`: gate projection, view as `(T, num_experts)`, then
`routing`.  The gate projection is a tensor computation and is recorded as
the first event. -/
def forward (E : ℚ → ℚ) (sink : Mat → Mat)
    (lossF : Mat → List (List ℕ) → ℚ → ℚ) (weight : Mat)
    (st : TopKRouterState) (training : Bool) (jo : ℕ → ℕ → ℚ)
    (mo : ℕ → ℕ → Bool) (input : MTensor) :
    TopKRouterState × List Ev × Except RtError (MTensor × List (List ℕ)) :=
  let logits := viewT st.config.num_moe_experts (linearT input weight)
  let r := routing E sink lossF st training jo mo logits
  (r.1, Ev.ev_gating :: r.2.1, r.2.2)

/-! ## A computable model of the exponential -/

/-- A computable, strictly monotone, positive rational stand-in for the real
exponential (with `modelExp 0 = 1`), used to evaluate concrete examples.
`softmax` row ordering and `sigmoid` bounds depend on the exponential only
through strict monotonicity and positivity, so top-k selections computed
with `modelExp` agree with those of any faithful exponential. -/
def modelExp (x : ℚ) : ℚ := if 0 ≤ x then x + 1 else 1 / (1 - x)

/-! ## Lemmas about the top-k kernel -/

lemma argmaxIdx_eq_none_iff (row : List ℚ) (cand : List ℕ) :
    argmaxIdx row cand = none ↔ cand = [] := by
  cases cand with
  | nil => simp [argmaxIdx]
  | cons i rest =>
    cases h : argmaxIdx row rest with
    | none => simp [argmaxIdx, h]
    | some j =>
      simp only [argmaxIdx, h]
      split <;> simp

lemma argmaxIdx_mem {row : List ℚ} {cand : List ℕ} {j : ℕ}
    (h : argmaxIdx row cand = some j) : j ∈ cand := by
  induction cand generalizing j with
  | nil => simp [argmaxIdx] at h
  | cons i rest ih =>
    cases h' : argmaxIdx row rest with
    | none =>
      simp only [argmaxIdx, h'] at h
      cases h
      exact List.mem_cons_self _ _
    | some j' =>
      simp only [argmaxIdx, h'] at h
      split at h
      · cases h; exact List.mem_cons_of_mem _ (ih h')
      · cases h; exact List.mem_cons_self _ _

lemma topkIdxGo_subset {row : List ℚ} {k : ℕ} {cand : List ℕ} :
    ∀ i ∈ topkIdxGo row k cand, i ∈ cand := by
  induction k generalizing cand with
  | zero => simp [topkIdxGo]
  | succ k ih =>
    intro i hi
    cases h : argmaxIdx row cand with
    | none => simp [topkIdxGo, h] at hi
    | some j =>
      simp only [topkIdxGo, h] at hi
      rcases List.mem_cons.mp hi with rfl | hmem
      · exact argmaxIdx_mem h
      · exact List.erase_subset _ _ (ih _ hmem)

lemma topkIdxGo_nodup {row : List ℚ} {k : ℕ} {cand : List ℕ}
    (hc : cand.Nodup) : (topkIdxGo row k cand).Nodup := by
  induction k generalizing cand with
  | zero => simp [topkIdxGo]
  | succ k ih =>
    cases h : argmaxIdx row cand with
    | none => simp [topkIdxGo, h]
    | some j =>
      simp only [topkIdxGo, h]
      refine List.nodup_cons.mpr ⟨fun hj => ?_, ih (hc.erase j)⟩
      exact hc.not_mem_erase (topkIdxGo_subset _ hj)

lemma topkIdxGo_length {row : List ℚ} {k : ℕ} {cand : List ℕ} :
    (topkIdxGo row k cand).length = min k cand.length := by
  induction k generalizing cand with
  | zero => simp [topkIdxGo]
  | succ k ih =>
    cases h : argmaxIdx row cand with
    | none =>
      rcases (argmaxIdx_eq_none_iff row cand).mp h with rfl
      simp [topkIdxGo, h]
    | some j =>
      have hmem := argmaxIdx_mem h
      have hlen := List.length_erase_of_mem hmem
      have hpos : 0 < cand.length := List.length_pos_of_mem hmem
      simp only [topkIdxGo, h, List.length_cons, ih, hlen]
      omega

lemma topkIdxRow_nodup (row : List ℚ) (k : ℕ) : (topkIdxRow row k).Nodup :=
  topkIdxGo_nodup (List.nodup_range _)

lemma topkIdxRow_mem_lt {row : List ℚ} {k : ℕ} :
    ∀ i ∈ topkIdxRow row k, i < row.length := by
  intro i hi
  exact List.mem_range.mp (topkIdxGo_subset _ hi)

lemma topkIdxRow_length (row : List ℚ) (k : ℕ) :
    (topkIdxRow row k).length = min k row.length := by
  simp [topkIdxRow, topkIdxGo_length]

lemma topkValRow_length (row : List ℚ) (k : ℕ) :
    (topkValRow row k).length = min k row.length := by
  simp [topkValRow, topkIdxRow_length]

/-! ## Nonnegativity and normalization lemmas -/

lemma getD_nonneg {l : List ℚ} (h : ∀ x ∈ l, 0 ≤ x) (i : ℕ) :
    0 ≤ l.getD i 0 := by
  induction l generalizing i with
  | nil => simp
  | cons a t ih =>
    cases i with
    | zero => simpa using h a (by simp)
    | succ i => simpa using ih (fun x hx => h x (by simp [hx])) i

lemma sum_map_div (l : List ℚ) (f : ℚ → ℚ) (c : ℚ) :
    (l.map (fun x => f x / c)).sum = (l.map f).sum / c := by
  induction l with
  | nil => simp
  | cons a t ih => simp [ih, add_div]

lemma softmaxRow_length (E : ℚ → ℚ) (row : List ℚ) :
    (softmaxRow E row).length = row.length := by
  simp [softmaxRow]

lemma expSum_pos {E : ℚ → ℚ} (hE : ∀ x, 0 < E x) {row : List ℚ}
    (hne : row ≠ []) : 0 < (row.map E).sum := by
  apply List.sum_pos
  · intro x hx
    rcases List.mem_map.mp hx with ⟨y, _, rfl⟩
    exact hE y
  · simpa using hne

lemma softmaxRow_nonneg {E : ℚ → ℚ} (hE : ∀ x, 0 < E x) (row : List ℚ) :
    ∀ y ∈ softmaxRow E row, 0 ≤ y := by
  intro y hy
  rcases List.mem_map.mp hy with ⟨x, hx, rfl⟩
  have hne : row ≠ [] := fun h => by simp [h] at hx
  exact le_of_lt (div_pos (hE x) (expSum_pos hE hne))

lemma softmaxRow_sum_one {E : ℚ → ℚ} (hE : ∀ x, 0 < E x) {row : List ℚ}
    (hne : row ≠ []) : (softmaxRow E row).sum = 1 := by
  have h := expSum_pos hE hne
  simp only [softmaxRow, sum_map_div]
  exact div_self (ne_of_gt h)

lemma sigmoidQ_mem_unit {E : ℚ → ℚ} (hE : ∀ x, 0 < E x) (x : ℚ) :
    0 ≤ sigmoidQ E x ∧ sigmoidQ E x ≤ 1 := by
  have hden : (0:ℚ) < 1 + E (-x) := by linarith [hE (-x)]
  constructor
  · exact le_of_lt (div_pos one_pos hden)
  · rw [sigmoidQ, div_le_one hden]
    linarith [hE (-x)]

lemma topkValRow_nonneg {row : List ℚ} (h : ∀ x ∈ row, 0 ≤ x) (k : ℕ) :
    ∀ y ∈ topkValRow row k, 0 ≤ y := by
  intro y hy
  rcases List.mem_map.mp hy with ⟨i, _, rfl⟩
  exact getD_nonneg h i

/-! ## Grouped-router lemmas -/

lemma groupedIdxRow_mem_lt {g gn : ℕ} (gk : ℕ) (row : List ℚ) :
    ∀ i ∈ groupedIdxRow g gn gk row, i < g * gn := by
  intro i hi
  simp only [groupedIdxRow, List.mem_flatten] at hi
  rcases hi with ⟨s, hs, his⟩
  rcases List.mem_map.mp hs with ⟨j, hj, rfl⟩
  have hj' : j < g := List.mem_range.mp hj
  rcases List.mem_map.mp his with ⟨i0, hi0, rfl⟩
  have h1 : i0 < ((row.drop (j * gn)).take gn).length := topkIdxRow_mem_lt _ hi0
  have h2 : ((row.drop (j * gn)).take gn).length ≤ gn := by
    simp [List.length_take]
  calc i0 + j * gn < gn + j * gn := by omega
    _ = (j + 1) * gn := by ring
    _ ≤ g * gn := Nat.mul_le_mul_right _ hj'

lemma groupedIdxRow_nodup (g gn gk : ℕ) (row : List ℚ) :
    (groupedIdxRow g gn gk row).Nodup := by
  rw [groupedIdxRow, List.nodup_flatten]
  constructor
  · intro l hl
    rcases List.mem_map.mp hl with ⟨j, _, rfl⟩
    exact (topkIdxRow_nodup _ _).map (fun a b h => by omega)
  · rw [List.pairwise_map]
    apply List.Pairwise.imp _ (List.pairwise_lt_range g)
    intro j j' hjj' x hx hx'
    rcases List.mem_map.mp hx with ⟨i0, hi0, rfl⟩
    rcases List.mem_map.mp hx' with ⟨i1, hi1, heq⟩
    have h1 : i0 < ((row.drop (j * gn)).take gn).length := topkIdxRow_mem_lt _ hi0
    have h2 : ((row.drop (j * gn)).take gn).length ≤ gn := by simp [List.length_take]
    have h3 : i1 < ((row.drop (j' * gn)).take gn).length := topkIdxRow_mem_lt _ hi1
    have h2' : ((row.drop (j' * gn)).take gn).length ≤ gn := by simp [List.length_take]
    have h0 : i0 < gn := lt_of_lt_of_le h1 h2
    have h0' : i1 < gn := lt_of_lt_of_le h3 h2'
    have hj1 : j + 1 ≤ j' := hjj'
    have hmul : (j + 1) * gn ≤ j' * gn := Nat.mul_le_mul_right _ hj1
    have hexp : (j + 1) * gn = j * gn + gn := by ring
    omega

lemma groupedIdxRow_length {g gn gk : ℕ} {row : List ℚ}
    (hrow : row.length = g * gn) :
    (groupedIdxRow g gn gk row).length = g * min gk gn := by
  rw [groupedIdxRow, List.length_flatten]
  have hmap : ∀ j ∈ List.range g,
      ((topkIdxRow ((row.drop (j * gn)).take gn) gk).map (fun i => i + j * gn)).length
        = min gk gn := by
    intro j hj
    have hj' : j < g := List.mem_range.mp hj
    have hchunk : ((row.drop (j * gn)).take gn).length = gn := by
      have hmul : (j + 1) * gn ≤ g * gn := Nat.mul_le_mul_right _ hj'
      have hexp : (j + 1) * gn = j * gn + gn := by ring
      simp only [List.length_take, List.length_drop, hrow]
      omega
    rw [List.length_map, topkIdxRow_length, hchunk]
  rw [List.map_map, List.map_congr_left (by intro j hj; exact hmap j hj)]
  simp [List.map_const', Nat.mul_comm]

/-! ## Shape lemmas -/

/-- All rows of a matrix have length `n`. -/
def RowsLen (m : Mat) (n : ℕ) : Prop := ∀ r ∈ m, r.length = n

lemma reshapeRows_rowsLen {n : ℕ} (hn : 0 < n) (m : Mat) :
    RowsLen (reshapeRows n m) n := by
  intro r hr
  rcases List.mem_map.mp hr with ⟨t, ht, rfl⟩
  have ht' : t < m.flatten.length / n := List.mem_range.mp ht
  have h1 : (t + 1) * n ≤ (m.flatten.length / n) * n :=
    Nat.mul_le_mul_right _ ht'
  have h2 : (m.flatten.length / n) * n ≤ m.flatten.length :=
    Nat.div_mul_le_self _ _
  have hexp : (t + 1) * n = t * n + n := by ring
  simp only [List.length_take, List.length_drop]
  omega

lemma reshapeRows_id {n : ℕ} (hn : 0 < n) :
    ∀ {m : Mat}, RowsLen m n → reshapeRows n m = m := by
  intro m
  induction m with
  | nil => intro _; simp [reshapeRows]
  | cons r t ih =>
    intro hm
    have hr : r.length = n := hm r (by simp)
    have ht : RowsLen t n := fun x hx => hm x (by simp [hx])
    have hflat : (r :: t).flatten = r ++ t.flatten := rfl
    have hlen : (r :: t).flatten.length = n + t.flatten.length := by
      simp [hflat, hr]
    have hdiv : (r :: t).flatten.length / n = t.flatten.length / n + 1 := by
      rw [hlen, Nat.add_comm, Nat.add_div_right _ hn]
    rw [reshapeRows, hdiv, List.range_succ_eq_map, List.map_cons]
    congr 1
    · simp [hflat, ← hr, List.take_left]
    · rw [List.map_map]
      have : ∀ j ∈ List.range (t.flatten.length / n),
          ((r :: t).flatten.drop (Nat.succ j * n)).take n
            = (t.flatten.drop (j * n)).take n := by
        intro j _
        have : Nat.succ j * n = r.length + j * n := by
          rw [hr, Nat.succ_eq_add_one]; ring
        rw [this, ← List.drop_drop, hflat, List.drop_left]
      rw [List.map_congr_left (fun j hj => by simpa using this j hj)]
      exact ih ht

lemma topkIdxMat_prop {m : Mat} {n : ℕ} (k : ℕ) (hm : RowsLen m n) :
    ∀ row ∈ m.map (fun r => topkIdxRow r k),
      row.Nodup ∧ ∀ i ∈ row, i < n := by
  intro row hrow
  rcases List.mem_map.mp hrow with ⟨r, hr, rfl⟩
  exact ⟨topkIdxRow_nodup _ _, fun i hi => hm r hr ▸ topkIdxRow_mem_lt _ hi⟩

lemma rowsLen_map_of_length {α : Type} {m : Mat} {n : ℕ} (hm : RowsLen m n)
    (f : List ℚ → List α) (hf : ∀ r, (f r).length = r.length) :
    ∀ r ∈ m.map f, r.length = n := by
  intro r hr
  rcases List.mem_map.mp hr with ⟨r0, hr0, rfl⟩
  rw [hf, hm r0 hr0]

lemma sigmoidT_rowsLen {E : ℚ → ℚ} {t : MTensor} {n : ℕ}
    (h : RowsLen t.data n) : RowsLen (sigmoidT E t).data n :=
  rowsLen_map_of_length h _ (fun _ => List.length_map _ _)

lemma softmax_f32_rowsLen {E : ℚ → ℚ} {t : MTensor} {n : ℕ}
    (h : RowsLen t.data n) : RowsLen (softmax_f32 E t).data n :=
  rowsLen_map_of_length h _ (fun _ => softmaxRow_length _ _)

lemma snd_mem_of_mem_enum {α : Type} {l : List α} {p : ℕ × α}
    (hp : p ∈ l.enum) : p.2 ∈ l := by
  have := List.mem_map_of_mem Prod.snd hp
  rwa [List.enum_map_snd] at this

lemma jitterMul_rowsLen {jo : ℕ → ℕ → ℚ} {t : MTensor} {n : ℕ}
    (h : RowsLen t.data n) : RowsLen (jitterMul jo t).data n := by
  intro r hr
  rcases List.mem_map.mp hr with ⟨p, hp, rfl⟩
  rw [List.length_map, List.enum_length]
  exact h p.2 (snd_mem_of_mem_enum hp)

lemma attention_mask_func_rowsLen {mo : ℕ → ℕ → Bool} {t : MTensor} {n : ℕ}
    (h : RowsLen t.data n) : RowsLen (attention_mask_func t mo).data n := by
  intro r hr
  rcases List.mem_map.mp hr with ⟨p, hp, rfl⟩
  rw [List.length_map, List.enum_length]
  exact h p.2 (snd_mem_of_mem_enum hp)

/-! ## Per-strategy index properties -/

lemma apply_z_loss_snd (config : TransformerConfig) (t : MTensor) :
    (apply_z_loss config t).2 = t := by
  cases h : config.moe_z_loss_coeff <;> simp [apply_z_loss, h]

lemma apply_input_jitter_data_rowsLen {st : TopKRouterState} {jo : ℕ → ℕ → ℚ}
    {t : MTensor} {n : ℕ} (h : RowsLen t.data n) :
    RowsLen (apply_input_jitter st jo t).2.2.data n := by
  cases he : st.config.moe_input_jitter_eps with
  | none => simpa [apply_input_jitter, he] using h
  | some e => simpa [apply_input_jitter, he] using jitterMul_rowsLen h

lemma sinkhorn_activation_rowsLen {E : ℚ → ℚ} {topk : ℕ} {logits : MTensor}
    {n : ℕ} (h : RowsLen logits.data n) :
    RowsLen (sinkhorn_activation E topk logits).data n := by
  by_cases h1 : topk = 1 <;> simp only [sinkhorn_activation, h1, if_true, if_false]
  · exact sigmoidT_rowsLen h
  · simp only [if_neg h1, type_as]
    exact softmax_f32_rowsLen h

lemma sinkhorn_ok_indices {E : ℚ → ℚ} {sink : Mat → Mat}
    {config : TransformerConfig} {training : Bool} {topk : ℕ}
    {logits scores : MTensor} {indices : List (List ℕ)} {n : ℕ}
    (hlen : RowsLen logits.data n)
    (hsink : ∀ m, RowsLen m n → RowsLen (sink m) n)
    (h : sinkhorn_load_balancing E sink config training topk logits
          = Except.ok (scores, indices)) :
    ∀ row ∈ indices, row.Nodup ∧ ∀ i ∈ row, i < n := by
  by_cases hc : config.moe_aux_loss_coeff = 0
  · cases training with
    | false =>
      simp only [sinkhorn_load_balancing, hc, if_true, Bool.false_eq_true,
        if_false, Except.ok.injEq, Prod.mk.injEq] at h
      rcases h with ⟨-, hidx⟩
      subst hidx
      exact topkIdxMat_prop _ (sinkhorn_activation_rowsLen hlen)
    | true =>
      simp only [sinkhorn_load_balancing, hc, if_true, Except.ok.injEq,
        Prod.mk.injEq] at h
      rcases h with ⟨-, hidx⟩
      subst hidx
      have hlen' : RowsLen (detachT (sinkApply sink (to_f32 logits))).data n := by
        simpa [detachT, sinkApply, to_f32] using hsink _ hlen
      exact topkIdxMat_prop _ hlen'
  · simp [sinkhorn_load_balancing, hc] at h

lemma sigmoid_indices_prop {E : ℚ → ℚ} {lossF : Mat → List (List ℕ) → ℚ → ℚ}
    {config : TransformerConfig} {training : Bool} {topk : ℕ}
    {mo : ℕ → ℕ → Bool} {logits : MTensor} {n : ℕ}
    (hlen : RowsLen logits.data n) :
    ∀ row ∈ (sigmoid_load_balancing E lossF config training topk mo logits).2.1,
      row.Nodup ∧ ∀ i ∈ row, i < n := by
  have hmasked : RowsLen (if config.moe_dropout ≠ 0 ∧ training = true
      then attention_mask_func logits mo else logits).data n := by
    split
    · exact attention_mask_func_rowsLen hlen
    · exact hlen
  simp only [sigmoid_load_balancing]
  exact topkIdxMat_prop _ (sigmoidT_rowsLen hmasked)

lemma grouped_indices_prop {E : ℚ → ℚ} {logits : MTensor} {n topk g : ℕ}
    (hdvd : g ∣ n) :
    ∀ row ∈ (grouped_router E logits n topk g).2.2,
      row.Nodup ∧ ∀ i ∈ row, i < n := by
  intro row hrow
  rcases List.mem_map.mp hrow with ⟨r, _, rfl⟩
  refine ⟨groupedIdxRow_nodup _ _ _ _, fun i hi => ?_⟩
  have := groupedIdxRow_mem_lt _ r i hi
  rwa [Nat.mul_div_cancel' hdvd] at this

lemma aux_loss_indices_prop {E : ℚ → ℚ} {lossF : Mat → List (List ℕ) → ℚ → ℚ}
    {config : TransformerConfig} {topk : ℕ} {logits : MTensor} {n : ℕ}
    (hlen : RowsLen logits.data n)
    (hn : config.num_moe_experts = n)
    (hgrp : config.moe_router_type = RouterType.grouped →
        config.moe_group_size ∣ n) :
    ∀ row ∈ (aux_loss_load_balancing E lossF config topk logits).2.1,
      row.Nodup ∧ ∀ i ∈ row, i < n := by
  cases hrt : config.moe_router_type with
  | mixtral =>
    simp only [aux_loss_load_balancing, hrt]
    exact topkIdxMat_prop _ hlen
  | st =>
    simp only [aux_loss_load_balancing, hrt]
    have : RowsLen (type_as (softmax_f32 E logits) logits).data n := by
      simpa [type_as] using softmax_f32_rowsLen hlen
    exact topkIdxMat_prop _ this
  | grouped =>
    simp only [aux_loss_load_balancing, hrt]
    rw [hn]
    exact grouped_indices_prop (hgrp hrt)

lemma btx_indices_prop {E : ℚ → ℚ} {config : TransformerConfig} {topk : ℕ}
    {logits : MTensor} {n : ℕ} (hlen : RowsLen logits.data n) :
    ∀ row ∈ (btx_aux_loss_load_balancing E config topk logits).2.1,
      row.Nodup ∧ ∀ i ∈ row, i < n := by
  simp only [btx_aux_loss_load_balancing]
  exact topkIdxMat_prop _ hlen

/-! ## Concrete fixtures used by witnesses and counterexamples -/

/-- A minimal concrete configuration: two experts, top-1, plain top-k
routing, no regularization. -/
def cfgNone : TransformerConfig where
  num_moe_experts := 2
  moe_router_topk := 1
  moe_router_load_balancing_type := RoutingType.rt_none
  moe_aux_loss_type := AuxLossType.switch
  moe_router_type := RouterType.st
  moe_aux_loss_coeff := 0
  moe_z_loss_coeff := none
  moe_input_jitter_eps := none
  moe_dropout := 0
  moe_group_size := 1
  moe_token_dropping := false

/-- Router state built from `cfgNone`. -/
def stNone : TopKRouterState where
  config := cfgNone
  topk := 1
  routing_type := RoutingType.rt_none
  input_jitter := false

/-- A trivial balancing-loss function for concrete runs. -/
def lossF0 : Mat → List (List ℕ) → ℚ → ℚ := fun _ _ _ => 0

/-- A jitter oracle that always samples 1 (no perturbation). -/
def jo1 : ℕ → ℕ → ℚ := fun _ _ => 1

/-- A dropout-mask oracle that never masks. -/
def moF : ℕ → ℕ → Bool := fun _ _ => false

/-- A concrete one-token logits tensor over two experts. -/
def logits21 : MTensor := { data := [[1, 2]], dtype := DType.f16, reqGrad := true }

/-- `cfgNone` with an input-jitter epsilon configured. -/
def cfgJit : TransformerConfig :=
  { cfgNone with moe_input_jitter_eps := some (1/2) }

/-- Router state built from `cfgJit`. -/
def stJit : TopKRouterState where
  config := cfgJit
  topk := 1
  routing_type := RoutingType.rt_none
  input_jitter := false

/-- A jitter oracle that quadruples the first expert column. -/
def joC : ℕ → ℕ → ℚ := fun _ c => if c = 0 then 4 else 1

/-- The worked example logits row from the `grouped_router` docstring. -/
def logits842 : MTensor :=
  { data := [[6605/10000, 5067/10000, -27087/10000, -10703/10000,
              -4339/10000, -618/10000, 3023/10000, -6805/10000]]
    dtype := DType.f16
    reqGrad := true }

/-- The per-group quota of `groupedIdxRow` at the configuration
`num_experts = 8`, `top_k = 4`, `group_size = 2`: four indices per row, two
in each group of four. -/
lemma groupedIdxRow_842 {row : List ℚ} (hrow : row.length = 8) :
    (groupedIdxRow 2 4 2 row).length = 4 ∧
    (groupedIdxRow 2 4 2 row).countP (fun i => decide (i < 4)) = 2 ∧
    (groupedIdxRow 2 4 2 row).countP (fun i => decide (4 ≤ i)) = 2 := by
  have hc0 : ((row.drop (0 * 4)).take 4).length = 4 := by
    simp [List.length_take, List.length_drop, hrow]
  have hc1 : ((row.drop (1 * 4)).take 4).length = 4 := by
    simp [List.length_take, List.length_drop, hrow]
  have hflat : groupedIdxRow 2 4 2 row =
      (topkIdxRow ((row.drop (0 * 4)).take 4) 2).map (fun i => i + 0 * 4) ++
      ((topkIdxRow ((row.drop (1 * 4)).take 4) 2).map (fun i => i + 1 * 4) ++ []) := by
    simp [groupedIdxRow, List.range_succ]
  have hl0 : (topkIdxRow ((row.drop (0 * 4)).take 4) 2).length = 2 := by
    rw [topkIdxRow_length, hc0]
    decide
  have hl1 : (topkIdxRow ((row.drop (1 * 4)).take 4) 2).length = 2 := by
    rw [topkIdxRow_length, hc1]
    decide
  have hmem0 : ∀ i ∈ topkIdxRow ((row.drop (0 * 4)).take 4) 2, i < 4 := by
    intro i hi
    have := topkIdxRow_mem_lt _ hi
    rwa [hc0] at this
  refine ⟨?_, ?_, ?_⟩
  · rw [hflat]
    simp only [List.length_append, List.length_map, List.length_nil, hl0, hl1]
  · rw [hflat, List.countP_append, List.countP_append, List.countP_map, List.countP_map]
    have h1 : List.countP ((fun i => decide (i < 4)) ∘ fun i => i + 0 * 4)
        (topkIdxRow ((row.drop (0 * 4)).take 4) 2) =
        (topkIdxRow ((row.drop (0 * 4)).take 4) 2).length := by
      apply List.countP_eq_length.mpr
      intro a ha
      have := hmem0 a ha
      simp only [Function.comp_apply, decide_eq_true_eq]
      omega
    have h2 : List.countP ((fun i => decide (i < 4)) ∘ fun i => i + 1 * 4)
        (topkIdxRow ((row.drop (1 * 4)).take 4) 2) = 0 := by
      apply List.countP_eq_zero.mpr
      intro a ha
      simp only [Function.comp_apply, decide_eq_true_eq]
      omega
    rw [h1, h2, hl0]
    rfl
  · rw [hflat, List.countP_append, List.countP_append, List.countP_map, List.countP_map]
    have h1 : List.countP ((fun i => decide (4 ≤ i)) ∘ fun i => i + 0 * 4)
        (topkIdxRow ((row.drop (0 * 4)).take 4) 2) = 0 := by
      apply List.countP_eq_zero.mpr
      intro a ha
      have := hmem0 a ha
      simp only [Function.comp_apply, decide_eq_true_eq]
      omega
    have h2 : List.countP ((fun i => decide (4 ≤ i)) ∘ fun i => i + 1 * 4)
        (topkIdxRow ((row.drop (1 * 4)).take 4) 2) =
        (topkIdxRow ((row.drop (1 * 4)).take 4) 2).length := by
      apply List.countP_eq_length.mpr
      intro a ha
      simp only [Function.comp_apply, decide_eq_true_eq]
      omega
    rw [h1, h2, hl1]
    rfl

/-! ## Claim theorems -/

/-- C1: for every configuration (routing type `none`, `sinkhorn`,
`aux_loss` in each variant, or `sigmoid`) and every logits input, whenever
`TopKRouter.routing` returns, the indices matrix contains no duplicate
expert id within any token row and every entry lies in
`[0, num_moe_experts)`.  The hypotheses mirror the claim's well-formedness
conditions: a positive expert count, `topk ≤ num_experts`, a
shape-preserving sinkhorn normalization, and (for the grouped variant) the
group size dividing the expert count. -/
theorem routing_indices_nodup_and_bounded
    (E : ℚ → ℚ) (sink : Mat → Mat) (lossF : Mat → List (List ℕ) → ℚ → ℚ)
    (st : TopKRouterState) (training : Bool) (jo : ℕ → ℕ → ℚ)
    (mo : ℕ → ℕ → Bool) (logits0 scores : MTensor)
    (indices : List (List ℕ)) (st1 : TopKRouterState) (evs : List Ev)
    (hN : 0 < st.config.num_moe_experts)
    (hk : st.topk ≤ st.config.num_moe_experts)
    (hsink : ∀ m, RowsLen m st.config.num_moe_experts →
        RowsLen (sink m) st.config.num_moe_experts)
    (hgrp : st.config.moe_router_type = RouterType.grouped →
        st.config.moe_group_size ∣ st.config.num_moe_experts)
    (hok : routing E sink lossF st training jo mo logits0
        = (st1, evs, Except.ok (scores, indices))) :
    ∀ row ∈ indices, row.Nodup ∧ ∀ i ∈ row, i < st.config.num_moe_experts := by
  have hlen3 : RowsLen
      ((apply_input_jitter st jo
        (apply_z_loss st.config (viewT st.config.num_moe_experts logits0)).2).2.2).data
      st.config.num_moe_experts := by
    apply apply_input_jitter_data_rowsLen
    rw [apply_z_loss_snd]
    exact reshapeRows_rowsLen hN _
  cases hrt : st.routing_type with
  | rt_none =>
    simp only [routing, hrt, Prod.mk.injEq, Except.ok.injEq] at hok
    rcases hok with ⟨-, -, -, hidx⟩
    subst hidx
    exact topkIdxMat_prop _ hlen3
  | sigmoid =>
    simp only [routing, hrt, Prod.mk.injEq, Except.ok.injEq] at hok
    rcases hok with ⟨-, -, -, hidx⟩
    subst hidx
    exact sigmoid_indices_prop hlen3
  | aux_loss =>
    cases hat : st.config.moe_aux_loss_type with
    | switch =>
      simp only [routing, hrt, hat, Prod.mk.injEq, Except.ok.injEq] at hok
      rcases hok with ⟨-, -, -, hidx⟩
      subst hidx
      exact aux_loss_indices_prop hlen3 rfl hgrp
    | btx =>
      simp only [routing, hrt, hat, Prod.mk.injEq, Except.ok.injEq] at hok
      rcases hok with ⟨-, -, -, hidx⟩
      subst hidx
      exact btx_indices_prop hlen3
    | btx_nograd =>
      simp only [routing, hrt, hat, Prod.mk.injEq, Except.ok.injEq] at hok
      rcases hok with ⟨-, -, -, hidx⟩
      subst hidx
      exact btx_indices_prop hlen3
  | sinkhorn =>
    cases hs : sinkhorn_load_balancing E sink st.config training st.topk
        ((apply_input_jitter st jo
          (apply_z_loss st.config (viewT st.config.num_moe_experts logits0)).2).2.2) with
    | error e => simp [routing, hrt, hs] at hok
    | ok si =>
      rcases si with ⟨s2, i2⟩
      simp only [routing, hrt, hs, Prod.mk.injEq, Except.ok.injEq] at hok
      rcases hok with ⟨-, -, -, hidx⟩
      subst hidx
      exact sinkhorn_ok_indices hlen3 hsink hs

/-- Witness for C1 at a concrete run of the plain top-k configuration:
the returned index row [1] is duplicate-free and its entry is below the
expert count. -/
theorem routing_indices_nodup_and_bounded_witness :
    ([1] : List ℕ).Nodup ∧ 1 < stNone.config.num_moe_experts :=
  ⟨(routing_indices_nodup_and_bounded modelExp id lossF0 stNone true jo1 moF
      logits21 { data := [[1]], dtype := DType.f16, reqGrad := true } [[1]]
      stNone [Ev.ev_strategy] (by decide) (by decide) (fun _ h => h)
      (by decide) (by decide) [1] (by decide)).1,
   (routing_indices_nodup_and_bounded modelExp id lossF0 stNone true jo1 moF
      logits21 { data := [[1]], dtype := DType.f16, reqGrad := true } [[1]]
      stNone [Ev.ev_strategy] (by decide) (by decide) (fun _ h => h)
      (by decide) (by decide) [1] (by decide)).2 1 (by decide)⟩

lemma mtensor_ext {a b : MTensor} (h1 : a.data = b.data)
    (h2 : a.dtype = b.dtype) (h3 : a.reqGrad = b.reqGrad) : a = b := by
  cases a
  cases b
  simp only [MTensor.mk.injEq]
  exact ⟨h1, h2, h3⟩

lemma promoteWithF32_idem (d : DType) :
    promoteWithF32 (promoteWithF32 d) = promoteWithF32 d := by
  cases d <;> rfl

lemma jitterMul_data_one (s : MTensor) :
    (jitterMul (fun _ _ => 1) s).data = s.data := by
  simp only [jitterMul, mul_one]
  calc s.data.enum.map (fun p => p.2.enum.map fun q => q.2)
      = s.data.enum.map (fun p => p.2) := by
        apply List.map_congr_left
        intro p _
        exact List.enum_map_snd p.2
    _ = s.data := List.enum_map_snd s.data

lemma jitterMul_one_promoted (jo : ℕ → ℕ → ℚ) (t : MTensor) :
    jitterMul (fun _ _ => 1) (jitterMul jo t) = jitterMul jo t :=
  mtensor_ext (jitterMul_data_one _) (promoteWithF32_idem t.dtype) rfl

lemma apply_input_jitter_some_out {st : TopKRouterState} {jo : ℕ → ℕ → ℚ}
    {t : MTensor} {e : ℚ} (heps : st.config.moe_input_jitter_eps = some e) :
    (apply_input_jitter st jo t).2.2 = jitterMul jo t
    ∧ (apply_input_jitter st jo t).1 = { st with input_jitter := true }
    ∧ (apply_input_jitter st jo t).2.1 = [Ev.ev_jitter] := by
  simp [apply_input_jitter, heps]

lemma viewT_id {n : ℕ} (hn : 0 < n) {t : MTensor} (h : RowsLen t.data n) :
    viewT n t = t := by
  cases t with
  | mk d dt g =>
    simp only [viewT]
    rw [reshapeRows_id hn h]

lemma gatherT_pointwise (t : MTensor) (idx : List (List ℕ)) {r j : ℕ}
    (hr : r < idx.length) (hj : j < (idx.getD r []).length) :
    ((gatherT t idx).data.getD r []).getD j 0
      = (t.data.getD r []).getD ((idx.getD r []).getD j 0) 0 := by
  have h1 : (gatherT t idx).data.getD r []
      = (idx.getD r []).map (fun i => (t.data.getD r []).getD i 0) := by
    simp only [gatherT]
    rw [List.getD_eq_getElem?_getD, List.getElem?_map, List.getElem?_range hr]
    rfl
  rw [h1, List.getD_eq_getElem?_getD, List.getElem?_map,
    List.getElem?_eq_getElem hj,
    List.getD_eq_getElem?_getD (idx.getD r []), List.getElem?_eq_getElem hj]
  rfl

/-- C2: the sinkhorn strategy in training mode selects indices by top-k
over the detached (`reqGrad = false`) sinkhorn normalization of the
fp32-promoted logits, and returns as weights the activation of the
original, non-detached logits (sigmoid when `top_k = 1`, 32-bit softmax
cast back otherwise) gathered pointwise at those indices; in evaluation
mode it skips the sinkhorn pass entirely (the result is the same for every
normalization function) and returns top-k of the activated logits for both
weights and indices. -/
theorem sinkhorn_structure (E : ℚ → ℚ) (sink : Mat → Mat)
    (config : TransformerConfig) (topk : ℕ) (logits : MTensor)
    (hc : config.moe_aux_loss_coeff = 0) :
    (sinkhorn_load_balancing E sink config true topk logits =
        Except.ok
          (gatherT (sinkhorn_activation E topk logits)
            (topkT (detachT (sinkApply sink (to_f32 logits))) topk).2,
           (topkT (detachT (sinkApply sink (to_f32 logits))) topk).2))
    ∧ (detachT (sinkApply sink (to_f32 logits))).reqGrad = false
    ∧ (detachT (sinkApply sink (to_f32 logits))).dtype = DType.f32
    ∧ (detachT (sinkApply sink (to_f32 logits))).data = sink logits.data
    ∧ (gatherT (sinkhorn_activation E topk logits)
        (topkT (detachT (sinkApply sink (to_f32 logits))) topk).2).reqGrad
        = logits.reqGrad
    ∧ (topk = 1 → sinkhorn_activation E topk logits = sigmoidT E logits)
    ∧ (topk ≠ 1 → sinkhorn_activation E topk logits
        = type_as (softmax_f32 E logits) logits)
    ∧ (∀ r j,
        r < (topkT (detachT (sinkApply sink (to_f32 logits))) topk).2.length →
        j < (((topkT (detachT (sinkApply sink (to_f32 logits))) topk).2.getD r []).length) →
        ((gatherT (sinkhorn_activation E topk logits)
            (topkT (detachT (sinkApply sink (to_f32 logits))) topk).2).data.getD r []).getD j 0
          = ((sinkhorn_activation E topk logits).data.getD r []).getD
              (((topkT (detachT (sinkApply sink (to_f32 logits))) topk).2.getD r []).getD j 0) 0)
    ∧ (sinkhorn_load_balancing E sink config false topk logits =
        Except.ok ((topkT (sinkhorn_activation E topk logits) topk).1,
                   (topkT (sinkhorn_activation E topk logits) topk).2))
    ∧ (∀ sink' : Mat → Mat,
        sinkhorn_load_balancing E sink' config false topk logits
          = sinkhorn_load_balancing E sink config false topk logits) := by
  refine ⟨?_, rfl, rfl, rfl, ?_, ?_, ?_, ?_, ?_, ?_⟩
  · simp [sinkhorn_load_balancing, hc]
  · by_cases h1 : topk = 1 <;>
      simp [sinkhorn_activation, h1, gatherT, sigmoidT, type_as, softmax_f32]
  · intro h1
    simp [sinkhorn_activation, h1]
  · intro h1
    simp [sinkhorn_activation, h1]
  · intro r j hr hj
    exact gatherT_pointwise _ _ hr hj
  · simp [sinkhorn_load_balancing, hc]
  · intro sink'
    simp [sinkhorn_load_balancing, hc]

/-- Witness for C2 at a concrete sinkhorn run (identity normalization,
zero aux-loss coefficient). -/
theorem sinkhorn_structure_witness :
    cfgNone.moe_aux_loss_coeff = 0 ∧
    sinkhorn_load_balancing modelExp id cfgNone true 1 logits21 =
      Except.ok
        (gatherT (sinkhorn_activation modelExp 1 logits21)
          (topkT (detachT (sinkApply id (to_f32 logits21))) 1).2,
         (topkT (detachT (sinkApply id (to_f32 logits21))) 1).2) :=
  ⟨rfl, (sinkhorn_structure modelExp id cfgNone 1 logits21 rfl).1⟩

lemma attention_mask_pointwise (t : MTensor) (mo : ℕ → ℕ → Bool) {r j : ℕ}
    (hr : r < t.data.length) (hj : j < (t.data.getD r []).length) :
    ((attention_mask_func t mo).data.getD r []).getD j 0
      = if mo r j then -10000 else (t.data.getD r []).getD j 0 := by
  have hrow : t.data.getD r [] = t.data[r] := by
    rw [List.getD_eq_getElem?_getD, List.getElem?_eq_getElem hr]
    rfl
  rw [hrow] at hj ⊢
  have h1 : (attention_mask_func t mo).data.getD r []
      = (t.data[r]).enum.map (fun q => if mo r q.1 then -10000 else q.2) := by
    simp only [attention_mask_func]
    rw [List.getD_eq_getElem?_getD, List.getElem?_map, List.getElem?_enum,
      List.getElem?_eq_getElem hr]
    rfl
  have hj' : j < (t.data[r]).enum.length := by
    rwa [List.enum_length]
  rw [h1, List.getD_eq_getElem?_getD, List.getElem?_map,
    List.getElem?_eq_getElem hj',
    List.getD_eq_getElem?_getD, List.getElem?_eq_getElem hj]
  have henj : (t.data[r]).enum[j] = (j, t.data[r][j]) := by
    have := List.getElem?_enum (t.data[r]) j
    rw [List.getElem?_eq_getElem hj', List.getElem?_eq_getElem hj] at this
    simpa using this
  rw [henj]
  rfl

/-- `cfgNone` with the sigmoid strategy and a nonzero dropout rate. -/
def cfgSig : TransformerConfig :=
  { cfgNone with
      moe_router_load_balancing_type := RoutingType.sigmoid
      moe_dropout := 1/2 }

/-- A dropout-mask oracle masking exactly position (0, 0). -/
def mo00 : ℕ → ℕ → Bool := fun r c => r == 0 && c == 0

/-- C5 (amended): under the sigmoid strategy, a Bernoulli mask (training
mode with a nonzero dropout rate only) overwrites masked logit positions
with the large negative sentinel -10000 before the sigmoid; weights and
indices are top-k by sigmoid value; and the 32-bit full-softmax
probabilities fed to the balancing-loss term are computed over the same
masked tensor that feeds the sigmoid (the mask reassigns `logits`), not
over the unmasked originals. -/
theorem sigmoid_load_balancing_spec (E : ℚ → ℚ)
    (lossF : Mat → List (List ℕ) → ℚ → ℚ) (config : TransformerConfig)
    (topk : ℕ) (mo : ℕ → ℕ → Bool) (logits : MTensor) :
    (config.moe_dropout ≠ 0 →
      sigmoid_load_balancing E lossF config true topk mo logits
        = ((topkT (sigmoidT E (attention_mask_func logits mo)) topk).1,
           (topkT (sigmoidT E (attention_mask_func logits mo)) topk).2,
           { lossProbs := softmax_f32 E (attention_mask_func logits mo)
             auxLoss := lossF (softmax_f32 E (attention_mask_func logits mo)).data
               (oneHotMask
                 (topkT (sigmoidT E (attention_mask_func logits mo)) topk).2
                 config.num_moe_experts)
               config.moe_aux_loss_coeff }))
    ∧ (∀ training : Bool, ¬(config.moe_dropout ≠ 0 ∧ training = true) →
      sigmoid_load_balancing E lossF config training topk mo logits
        = ((topkT (sigmoidT E logits) topk).1,
           (topkT (sigmoidT E logits) topk).2,
           { lossProbs := softmax_f32 E logits
             auxLoss := lossF (softmax_f32 E logits).data
               (oneHotMask (topkT (sigmoidT E logits) topk).2
                 config.num_moe_experts)
               config.moe_aux_loss_coeff }))
    ∧ (∀ r j : ℕ, r < logits.data.length →
        j < (logits.data.getD r []).length →
        ((attention_mask_func logits mo).data.getD r []).getD j 0
          = if mo r j then -10000 else (logits.data.getD r []).getD j 0)
    ∧ (softmax_f32 E (attention_mask_func logits mo)).dtype = DType.f32 := by
  refine ⟨?_, ?_, ?_, rfl⟩
  · intro hd
    simp [sigmoid_load_balancing, apply_aux_loss, hd]
  · intro training htr
    simp [sigmoid_load_balancing, apply_aux_loss, htr]
  · intro r j hr hj
    exact attention_mask_pointwise logits mo hr hj

/-- C5 counterexample: in training with dropout active, the softmax fed to
the balancing loss is computed over the masked logits; for the one-token
row [1, 2] with position (0, 0) masked, it differs from the softmax of the
unmasked originals. -/
theorem sigmoid_lossprobs_masked_counterexample :
    (sigmoid_load_balancing modelExp lossF0 cfgSig true 1 mo00
        logits21).2.2.lossProbs
      ≠ softmax_f32 modelExp logits21
    ∧ (sigmoid_load_balancing modelExp lossF0 cfgSig true 1 mo00
        logits21).2.2.lossProbs
      = softmax_f32 modelExp (attention_mask_func logits21 mo00) := by
  refine ⟨by decide, by decide⟩

/-- Witness for (amended) C5 at a concrete masked training run. -/
theorem sigmoid_load_balancing_spec_witness :
    cfgSig.moe_dropout ≠ 0 ∧
    sigmoid_load_balancing modelExp lossF0 cfgSig true 1 mo00 logits21
      = ((topkT (sigmoidT modelExp (attention_mask_func logits21 mo00)) 1).1,
         (topkT (sigmoidT modelExp (attention_mask_func logits21 mo00)) 1).2,
         { lossProbs := softmax_f32 modelExp (attention_mask_func logits21 mo00)
           auxLoss := lossF0
             (softmax_f32 modelExp (attention_mask_func logits21 mo00)).data
             (oneHotMask
               (topkT (sigmoidT modelExp (attention_mask_func logits21 mo00)) 1).2
               cfgSig.num_moe_experts)
             cfgSig.moe_aux_loss_coeff }) :=
  ⟨by decide,
   (sigmoid_load_balancing_spec modelExp lossF0 cfgSig 1 mo00 logits21).1
     (by decide)⟩

/-- C4 (amended): when an input-jitter epsilon is configured, the
multiplicative jitter is applied exactly once per routing call, to the
logits inside `routing` after the gate projection, in both training and
evaluation modes: the routing result coincides with a unit-jitter run on
the pre-multiplied logits, the lazily-constructed sampler flag is set by
the call, and `apply_input_jitter` multiplies its input elementwise by the
sample (with no training-mode check). -/
theorem input_jitter_applied_to_logits_both_modes
    (E : ℚ → ℚ) (sink : Mat → Mat) (lossF : Mat → List (List ℕ) → ℚ → ℚ)
    (st : TopKRouterState) (training : Bool) (jo : ℕ → ℕ → ℚ)
    (mo : ℕ → ℕ → Bool) (logits0 : MTensor) (e : ℚ)
    (heps : st.config.moe_input_jitter_eps = some e)
    (hN : 0 < st.config.num_moe_experts)
    (hrows : RowsLen logits0.data st.config.num_moe_experts) :
    (routing E sink lossF st training jo mo logits0).2.2
      = (routing E sink lossF st training (fun _ _ => 1) mo
          (jitterMul jo logits0)).2.2
    ∧ (routing E sink lossF st training jo mo logits0).1.input_jitter = true
    ∧ (apply_input_jitter st jo logits0).2.2 = jitterMul jo logits0 := by
  have hjrows : RowsLen (jitterMul jo logits0).data st.config.num_moe_experts :=
    jitterMul_rowsLen hrows
  have hview1 : viewT st.config.num_moe_experts logits0 = logits0 :=
    viewT_id hN hrows
  have hview2 : viewT st.config.num_moe_experts (jitterMul jo logits0)
      = jitterMul jo logits0 := viewT_id hN hjrows
  have hkey : (apply_input_jitter st jo
        (apply_z_loss st.config (viewT st.config.num_moe_experts logits0)).2).2.2
      = (apply_input_jitter st (fun _ _ => 1)
        (apply_z_loss st.config
          (viewT st.config.num_moe_experts (jitterMul jo logits0))).2).2.2 := by
    rw [apply_z_loss_snd, apply_z_loss_snd, hview1, hview2,
      (apply_input_jitter_some_out heps).1, (apply_input_jitter_some_out heps).1,
      jitterMul_one_promoted]
  refine ⟨?_, ?_, (apply_input_jitter_some_out heps).1⟩
  · cases hrt : st.routing_type
    case sinkhorn =>
      simp only [routing, hrt, hkey]
      cases hs : sinkhorn_load_balancing E sink st.config training st.topk
          ((apply_input_jitter st (fun _ _ => 1)
            (apply_z_loss st.config
              (viewT st.config.num_moe_experts (jitterMul jo logits0))).2).2.2) <;>
        simp [hs]
    case aux_loss =>
      cases hat : st.config.moe_aux_loss_type <;>
        simp only [routing, hrt, hat, hkey]
    all_goals simp only [routing, hrt, hkey]
  · cases hrt : st.routing_type with
    | sinkhorn =>
      cases hs : sinkhorn_load_balancing E sink st.config training st.topk
          ((apply_input_jitter st jo
            (apply_z_loss st.config
              (viewT st.config.num_moe_experts logits0)).2).2.2) with
      | ok si =>
        simp only [routing, hrt, hs, (apply_input_jitter_some_out heps).2.1]
      | error er =>
        simp only [routing, hrt, hs, (apply_input_jitter_some_out heps).2.1]
    | rt_none =>
      simp only [routing, hrt, (apply_input_jitter_some_out heps).2.1]
    | sigmoid =>
      simp only [routing, hrt, (apply_input_jitter_some_out heps).2.1]
    | aux_loss =>
      cases hat : st.config.moe_aux_loss_type <;>
        simp only [routing, hrt, hat, (apply_input_jitter_some_out heps).2.1]

/-- C4 counterexample: with an epsilon configured and training inactive,
the routed quantities are perturbed by the jitter: the same logits row
routes to expert 0 under a jitter sample that quadruples column 0, and to
expert 1 with no jitter configured. -/
theorem input_jitter_eval_counterexample :
    (routing modelExp id lossF0 stJit false joC moF logits21).2.2
      ≠ (routing modelExp id lossF0 stNone false joC moF logits21).2.2
    ∧ (routing modelExp id lossF0 stJit false joC moF logits21).2.2
      = Except.ok ({ data := [[1]], dtype := DType.f32, reqGrad := true }, [[0]])
    ∧ (routing modelExp id lossF0 stNone false joC moF logits21).2.2
      = Except.ok ({ data := [[1]], dtype := DType.f16, reqGrad := true }, [[1]]) := by
  refine ⟨by decide, by decide, by decide⟩

/-- Witness for (amended) C4 at a concrete evaluation-mode run. -/
theorem input_jitter_applied_witness :
    (routing modelExp id lossF0 stJit false joC moF logits21).2.2
      = (routing modelExp id lossF0 stJit false (fun _ _ => 1) moF
          (jitterMul joC logits21)).2.2
    ∧ (routing modelExp id lossF0 stJit false joC moF logits21).1.input_jitter
        = true :=
  ⟨(input_jitter_applied_to_logits_both_modes modelExp id lossF0 stJit false
      joC moF logits21 (1/2) rfl (by decide)
      (fun r hr => by rcases List.mem_singleton.mp hr with rfl; decide)).1,
   (input_jitter_applied_to_logits_both_modes modelExp id lossF0 stJit false
      joC moF logits21 (1/2) rfl (by decide)
      (fun r hr => by rcases List.mem_singleton.mp hr with rfl; decide)).2.1⟩

lemma sinkhorn_assert {E : ℚ → ℚ} {sink : Mat → Mat}
    {config : TransformerConfig} {training : Bool} {topk : ℕ}
    {logits : MTensor} (hc : config.moe_aux_loss_coeff ≠ 0) :
    sinkhorn_load_balancing E sink config training topk logits
      = Except.error RtError.assertionError := by
  simp [sinkhorn_load_balancing, hc]

/-- `cfgNone` with sinkhorn routing and a nonzero aux-loss coefficient. -/
def cfgSink : TransformerConfig :=
  { cfgNone with
      moe_router_load_balancing_type := RoutingType.sinkhorn
      moe_aux_loss_coeff := 1/10 }

/-- Router state built from `cfgSink`. -/
def stSink : TopKRouterState where
  config := cfgSink
  topk := 1
  routing_type := RoutingType.sinkhorn
  input_jitter := false

/-- An identity 2-by-2 gate weight. -/
def weight22 : Mat := [[1, 0], [0, 1]]

/-- C6 (amended): configuring sinkhorn routing together with a nonzero
aux-loss coefficient makes every forward call raise the assertion error
synchronously, in training and evaluation alike, before any
sinkhorn-strategy tensor computation (no strategy event is emitted) — but
only after the gate projection (the failing call's trace starts with the
gating event) and after any configured z-loss or jitter computation. -/
theorem sinkhorn_auxloss_always_raises
    (E : ℚ → ℚ) (sink : Mat → Mat) (lossF : Mat → List (List ℕ) → ℚ → ℚ)
    (weight : Mat) (st : TopKRouterState) (training : Bool)
    (jo : ℕ → ℕ → ℚ) (mo : ℕ → ℕ → Bool) (input : MTensor)
    (hrt : st.routing_type = RoutingType.sinkhorn)
    (hc : st.config.moe_aux_loss_coeff ≠ 0) :
    (forward E sink lossF weight st training jo mo input).2.2
      = Except.error RtError.assertionError
    ∧ Ev.ev_strategy ∉ (forward E sink lossF weight st training jo mo input).2.1
    ∧ Ev.ev_gating ∈ (forward E sink lossF weight st training jo mo input).2.1 := by
  refine ⟨?_, ?_, ?_⟩
  · simp only [forward, routing, hrt, sinkhorn_assert hc]
  · cases hz : st.config.moe_z_loss_coeff <;>
      cases he : st.config.moe_input_jitter_eps <;>
        simp [forward, routing, hrt, sinkhorn_assert hc, apply_z_loss,
          apply_input_jitter, hz, he]
  · simp [forward]

/-- C6 counterexample: the failing forward call's event trace is
`[ev_gating]`, not empty: the gate projection — a tensor computation of the
forward call — happens before the assertion error is raised. -/
theorem sinkhorn_raise_after_gating_counterexample :
    (forward modelExp id lossF0 weight22 stSink true jo1 moF logits21).2.2
      = Except.error RtError.assertionError
    ∧ (forward modelExp id lossF0 weight22 stSink true jo1 moF logits21).2.1
      = [Ev.ev_gating]
    ∧ (forward modelExp id lossF0 weight22 stSink true jo1 moF logits21).2.1
      ≠ ([] : List Ev) := by
  refine ⟨by decide, by decide, by decide⟩

/-- Witness for (amended) C6 at a concrete failing forward call. -/
theorem sinkhorn_auxloss_always_raises_witness :
    (forward modelExp id lossF0 weight22 stSink true jo1 moF logits21).2.2
      = Except.error RtError.assertionError
    ∧ Ev.ev_strategy ∉
        (forward modelExp id lossF0 weight22 stSink true jo1 moF logits21).2.1
    ∧ Ev.ev_gating ∈
        (forward modelExp id lossF0 weight22 stSink true jo1 moF logits21).2.1 :=
  sinkhorn_auxloss_always_raises modelExp id lossF0 weight22 stSink true jo1
    moF logits21 rfl (by decide)

/-- C3: for `num_experts = 8`, `top_k = 4`, `moe_group_size = 2`,
`grouped_router` computes the full 32-bit softmax over all 8 experts,
selects `top_k / group_size = 2` experts within each contiguous group of 4
and offsets the local indices by `group_index * 4` to global expert ids:
every output row has length 4 with exactly 2 indices in each group, all
below 8; and on the worked logits row of the source docstring the returned
global indices are `[0, 1, 6, 5]`. -/
theorem grouped_router_example_and_quota (E : ℚ → ℚ) (logits : MTensor)
    (hrows : RowsLen logits.data 8) :
    (∀ row ∈ (grouped_router E logits 8 4 2).2.2,
        row.length = 4 ∧ row.countP (fun i => decide (i < 4)) = 2 ∧
        row.countP (fun i => decide (4 ≤ i)) = 2 ∧ ∀ i ∈ row, i < 8)
    ∧ (grouped_router E logits 8 4 2).1 = softmax_f32 E logits
    ∧ (grouped_router E logits 8 4 2).1.dtype = DType.f32
    ∧ (grouped_router modelExp logits842 8 4 2).2.2 = [[0, 1, 6, 5]] := by
  refine ⟨?_, rfl, rfl, by decide⟩
  intro row hrow
  rcases List.mem_map.mp hrow with ⟨r, hr, rfl⟩
  have hrlen : r.length = 8 := softmax_f32_rowsLen hrows r hr
  have h842 := groupedIdxRow_842 hrlen
  refine ⟨h842.1, h842.2.1, h842.2.2, fun i hi => ?_⟩
  have := @groupedIdxRow_mem_lt 2 4 2 r i hi
  omega

lemma logits842_rowsLen : RowsLen logits842.data 8 := by
  intro r hr
  rcases List.mem_singleton.mp hr with rfl
  decide

/-- Witness for C3 at the docstring's logits row. -/
theorem grouped_router_example_and_quota_witness :
    (∀ row ∈ (grouped_router modelExp logits842 8 4 2).2.2,
        row.length = 4 ∧ row.countP (fun i => decide (i < 4)) = 2 ∧
        row.countP (fun i => decide (4 ≤ i)) = 2 ∧ ∀ i ∈ row, i < 8)
    ∧ (grouped_router modelExp logits842 8 4 2).2.2 = [[0, 1, 6, 5]] :=
  ⟨(grouped_router_example_and_quota modelExp logits842 logits842_rowsLen).1,
   (grouped_router_example_and_quota modelExp logits842 logits842_rowsLen).2.2.2⟩

/-- Position of `j` in an index list, if present. -/
def findPos (j : ℕ) : List ℕ → Option ℕ
  | [] => none
  | i :: rest => if i = j then some 0 else (findPos j rest).map (fun p => p + 1)

lemma getD_map' {α β : Type} (f : α → β) (l : List α) {r : ℕ}
    (hr : r < l.length) (d : β) : (l.map f).getD r d = f l[r] := by
  rw [List.getD_eq_getElem?_getD, List.getElem?_map, List.getElem?_eq_getElem hr]
  rfl

lemma getD_range_map {β : Type} (g : ℕ → β) {n r : ℕ} (hr : r < n) (d : β) :
    ((List.range n).map g).getD r d = g r := by
  rw [List.getD_eq_getElem?_getD, List.getElem?_map, List.getElem?_range hr]
  rfl

lemma zeroRow_getD (l : List ℚ) (j : ℕ) :
    (l.map (fun _ => (0:ℚ))).getD j 0 = 0 := by
  rw [List.getD_eq_getElem?_getD, List.getElem?_map]
  cases l[j]? <;> rfl

lemma scatterRow_getD_not_mem {z : List ℚ} {idx : List ℕ} {vals : List ℚ}
    {j : ℕ} (hj : j ∉ idx) :
    (scatterRow z idx vals).getD j 0 = z.getD j 0 := by
  induction idx generalizing z vals with
  | nil => rfl
  | cons i rest ih =>
    cases vals with
    | nil => rfl
    | cons v vs =>
      have hne : i ≠ j := fun h => hj (h ▸ List.mem_cons_self i rest)
      have hstep : scatterRow z (i :: rest) (v :: vs)
          = scatterRow (z.set i v) rest vs := rfl
      rw [hstep, ih (fun h => hj (List.mem_cons_of_mem _ h)),
        List.getD_eq_getElem?_getD, List.getElem?_set_ne hne,
        ← List.getD_eq_getElem?_getD]

lemma scatterRow_getD {z : List ℚ} {idx : List ℕ} {vals : List ℚ} {j : ℕ}
    (hnd : idx.Nodup) (hlen : vals.length = idx.length)
    (hbound : ∀ i ∈ idx, i < z.length) :
    (scatterRow z idx vals).getD j 0
      = match findPos j idx with
        | some p => vals.getD p 0
        | none => z.getD j 0 := by
  induction idx generalizing z vals with
  | nil => rfl
  | cons i rest ih =>
    cases vals with
    | nil => exact absurd hlen (by simp)
    | cons v vs =>
      have hstep : scatterRow z (i :: rest) (v :: vs)
          = scatterRow (z.set i v) rest vs := rfl
      have hndr : rest.Nodup := (List.nodup_cons.mp hnd).2
      have hni : i ∉ rest := (List.nodup_cons.mp hnd).1
      by_cases hij : i = j
      · subst hij
        have hfp : findPos i (i :: rest) = some 0 := by simp [findPos]
        rw [hstep, scatterRow_getD_not_mem hni, hfp,
          List.getD_eq_getElem?_getD,
          List.getElem?_set_self (hbound i (List.mem_cons_self _ _))]
        rfl
      · have hfp : findPos j (i :: rest)
            = (findPos j rest).map (fun p => p + 1) := by
          simp [findPos, hij]
        have hb' : ∀ a ∈ rest, a < (z.set i v).length := by
          intro a ha
          rw [List.length_set]
          exact hbound a (List.mem_cons_of_mem _ ha)
        rw [hstep, ih hndr (by simpa using hlen) hb', hfp]
        cases hf : findPos j rest with
        | none =>
          simp only [hf, Option.map_none']
          rw [List.getD_eq_getElem?_getD, List.getElem?_set_ne hij,
            ← List.getD_eq_getElem?_getD]
        | some p =>
          simp only [hf, Option.map_some']
          rfl

/-- All entries of a matrix are nonnegative. -/
def MatNonneg (m : Mat) : Prop := ∀ r ∈ m, ∀ x ∈ r, 0 ≤ x

lemma getD_row_mem_or_nil (m : Mat) (r : ℕ) :
    m.getD r [] ∈ m ∨ m.getD r [] = [] := by
  rw [List.getD_eq_getElem?_getD]
  cases h : m[r]? with
  | none => right; rfl
  | some row => left; simpa using List.getElem?_mem h

lemma getD_le_one {l : List ℚ} (h : ∀ x ∈ l, x ≤ 1) (i : ℕ) :
    l.getD i 0 ≤ 1 := by
  rw [List.getD_eq_getElem?_getD]
  cases hg : l[i]? with
  | none => norm_num
  | some x => simpa using h x (List.getElem?_mem hg)

lemma softmax_f32_nonneg {E : ℚ → ℚ} (hE : ∀ x, 0 < E x) (t : MTensor) :
    MatNonneg (softmax_f32 E t).data := by
  intro r hr x hx
  rcases List.mem_map.mp hr with ⟨r0, _, rfl⟩
  exact softmaxRow_nonneg hE r0 x hx

lemma sigmoidT_nonneg {E : ℚ → ℚ} (hE : ∀ x, 0 < E x) (t : MTensor) :
    MatNonneg (sigmoidT E t).data := by
  intro r hr x hx
  rcases List.mem_map.mp hr with ⟨r0, _, rfl⟩
  rcases List.mem_map.mp hx with ⟨x0, _, rfl⟩
  exact (sigmoidQ_mem_unit hE x0).1

lemma sigmoidT_le_one {E : ℚ → ℚ} (hE : ∀ x, 0 < E x) (t : MTensor) :
    ∀ r ∈ (sigmoidT E t).data, ∀ x ∈ r, x ≤ 1 := by
  intro r hr x hx
  rcases List.mem_map.mp hr with ⟨r0, _, rfl⟩
  rcases List.mem_map.mp hx with ⟨x0, _, rfl⟩
  exact (sigmoidQ_mem_unit hE x0).2

lemma topkT_fst_nonneg {t : MTensor} {k : ℕ} (h : MatNonneg t.data) :
    MatNonneg (topkT t k).1.data := by
  intro r hr x hx
  rcases List.mem_map.mp hr with ⟨r0, hr0, rfl⟩
  exact topkValRow_nonneg (h r0 hr0) k x hx

lemma topkT_fst_le_one {t : MTensor} {k : ℕ}
    (h : ∀ r ∈ t.data, ∀ x ∈ r, x ≤ 1) :
    ∀ r ∈ (topkT t k).1.data, ∀ x ∈ r, x ≤ 1 := by
  intro r hr x hx
  rcases List.mem_map.mp hr with ⟨r0, hr0, rfl⟩
  rcases List.mem_map.mp hx with ⟨i, _, rfl⟩
  exact getD_le_one (h r0 hr0) i

lemma gatherT_nonneg {t : MTensor} (h : MatNonneg t.data)
    (idx : List (List ℕ)) : MatNonneg (gatherT t idx).data := by
  intro r hr x hx
  rcases List.mem_map.mp hr with ⟨ri, _, rfl⟩
  rcases List.mem_map.mp hx with ⟨i, _, rfl⟩
  apply getD_nonneg
  intro y hy
  rcases getD_row_mem_or_nil t.data ri with hrow | hrow
  · exact h _ hrow y hy
  · rw [hrow] at hy
    cases hy

lemma groupedValRow_nonneg {row : List ℚ} (h : ∀ x ∈ row, 0 ≤ x)
    (g gn gk : ℕ) : ∀ y ∈ groupedValRow g gn gk row, 0 ≤ y := by
  intro y hy
  simp only [groupedValRow, List.mem_flatten] at hy
  rcases hy with ⟨s, hs, hys⟩
  rcases List.mem_map.mp hs with ⟨j, _, rfl⟩
  refine topkValRow_nonneg ?_ _ _ hys
  intro x hx
  exact h x (List.mem_of_mem_drop (List.mem_of_mem_take hx))

lemma sinkhorn_activation_nonneg {E : ℚ → ℚ} (hE : ∀ x, 0 < E x)
    (topk : ℕ) (logits : MTensor) :
    MatNonneg (sinkhorn_activation E topk logits).data := by
  by_cases h1 : topk = 1
  · simp only [sinkhorn_activation, h1, if_true]
    exact sigmoidT_nonneg hE _
  · simp only [sinkhorn_activation, if_neg h1, type_as]
    exact softmax_f32_nonneg hE _

lemma sinkhorn_scores_nonneg {E : ℚ → ℚ} {sink : Mat → Mat}
    {config : TransformerConfig} {training : Bool} {topk : ℕ}
    {logits scores : MTensor} {indices : List (List ℕ)}
    (hE : ∀ x, 0 < E x)
    (h : sinkhorn_load_balancing E sink config training topk logits
          = Except.ok (scores, indices)) :
    MatNonneg scores.data := by
  by_cases hc : config.moe_aux_loss_coeff = 0
  · cases training with
    | false =>
      simp only [sinkhorn_load_balancing, hc, if_true, Bool.false_eq_true,
        if_false, Except.ok.injEq, Prod.mk.injEq] at h
      rcases h with ⟨hs, -⟩
      rw [← hs]
      exact topkT_fst_nonneg (sinkhorn_activation_nonneg hE _ _)
    | true =>
      simp only [sinkhorn_load_balancing, hc, if_true, Except.ok.injEq,
        Prod.mk.injEq] at h
      rcases h with ⟨hs, -⟩
      rw [← hs]
      exact gatherT_nonneg (sinkhorn_activation_nonneg hE _ _) _
  · simp [sinkhorn_load_balancing, hc] at h

lemma aux_loss_scores_nonneg {E : ℚ → ℚ}
    {lossF : Mat → List (List ℕ) → ℚ → ℚ} {config : TransformerConfig}
    {topk : ℕ} {logits : MTensor} (hE : ∀ x, 0 < E x) :
    MatNonneg (aux_loss_load_balancing E lossF config topk logits).1.data := by
  cases hrt : config.moe_router_type with
  | mixtral =>
    simp only [aux_loss_load_balancing, hrt, apply_aux_loss, type_as]
    exact softmax_f32_nonneg hE _
  | st =>
    simp only [aux_loss_load_balancing, hrt, apply_aux_loss]
    exact topkT_fst_nonneg (softmax_f32_nonneg hE _)
  | grouped =>
    simp only [aux_loss_load_balancing, hrt, apply_aux_loss, grouped_router]
    intro r hr x hx
    rcases List.mem_map.mp hr with ⟨r0, hr0, rfl⟩
    exact groupedValRow_nonneg (softmax_f32_nonneg hE logits r0 hr0) _ _ _ x hx

lemma modelExp_pos : ∀ x : ℚ, 0 < modelExp x := by
  intro x
  by_cases h : 0 ≤ x
  · simp only [modelExp, if_pos h]
    linarith
  · simp only [modelExp, if_neg h]
    apply div_pos one_pos
    push_neg at h
    linarith

/-- A 3-expert sigmoid configuration without dropout. -/
def cfgSig3 : TransformerConfig :=
  { cfgNone with
      num_moe_experts := 3
      moe_router_load_balancing_type := RoutingType.sigmoid }

/-- A one-token all-zero logits row over three experts. -/
def logits30 : MTensor :=
  { data := [[0, 0, 0]], dtype := DType.f16, reqGrad := true }

/-- C7 (amended): for every configuration the returned weights are
nonnegative; under the st-style aux-loss strategy each token's weights are
gathered from a softmax distribution over the N experts that sums to 1
before top-k truncation; under `none` the weights themselves form a
distribution (softmax over the selected top-k logits) summing to 1; and
under `sigmoid` the weights lie in [0, 1] but are drawn from the
elementwise sigmoid vector, which need not sum to 1. -/
theorem weights_nonneg_and_normalization
    (E : ℚ → ℚ) (sink : Mat → Mat) (lossF : Mat → List (List ℕ) → ℚ → ℚ)
    (st : TopKRouterState) (training : Bool) (jo : ℕ → ℕ → ℚ)
    (mo : ℕ → ℕ → Bool) (logits0 scores : MTensor)
    (indices : List (List ℕ)) (st1 : TopKRouterState) (evs : List Ev)
    (hE : ∀ x, 0 < E x)
    (hN : 0 < st.config.num_moe_experts)
    (hk : 0 < st.topk)
    (hok : routing E sink lossF st training jo mo logits0
        = (st1, evs, Except.ok (scores, indices))) :
    MatNonneg scores.data
    ∧ (st.routing_type = RoutingType.aux_loss →
        st.config.moe_aux_loss_type = AuxLossType.switch →
        st.config.moe_router_type = RouterType.st →
        ∃ p : Mat, (∀ prow ∈ p, prow.sum = 1)
          ∧ scores.data = p.map (fun prow => topkValRow prow st.topk))
    ∧ (st.routing_type = RoutingType.rt_none → ∀ r ∈ scores.data, r.sum = 1)
    ∧ (st.routing_type = RoutingType.sigmoid →
        ∀ r ∈ scores.data, ∀ x ∈ r, x ≤ 1) := by
  have hlen3 : RowsLen ((apply_input_jitter st jo (apply_z_loss st.config
      (viewT st.config.num_moe_experts logits0)).2).2.2).data
      st.config.num_moe_experts := by
    apply apply_input_jitter_data_rowsLen
    rw [apply_z_loss_snd]
    exact reshapeRows_rowsLen hN _
  cases hrt : st.routing_type with
  | rt_none =>
    simp only [routing, hrt, Prod.mk.injEq, Except.ok.injEq] at hok
    rcases hok with ⟨-, -, hs, -⟩
    refine ⟨?_, ?_, ?_, ?_⟩
    · rw [← hs]
      exact softmax_f32_nonneg hE _
    · simp
    · intro _ r hr
      rw [← hs] at hr
      simp only [type_as, softmax_f32, topkT, List.map_map, List.mem_map] at hr
      rcases hr with ⟨lrow, hlrow, rfl⟩
      apply softmaxRow_sum_one hE
      apply List.ne_nil_of_length_pos
      simp only [Function.comp_apply, topkValRow_length]
      rw [hlen3 lrow hlrow]
      omega
    · simp
  | sigmoid =>
    simp only [routing, hrt, Prod.mk.injEq, Except.ok.injEq] at hok
    rcases hok with ⟨-, -, hs, -⟩
    refine ⟨?_, ?_, ?_, ?_⟩
    · rw [← hs]
      exact topkT_fst_nonneg (sigmoidT_nonneg hE _)
    · simp
    · simp
    · intro _
      rw [← hs]
      exact topkT_fst_le_one (sigmoidT_le_one hE _)
  | aux_loss =>
    cases hat : st.config.moe_aux_loss_type with
    | switch =>
      simp only [routing, hrt, hat, Prod.mk.injEq, Except.ok.injEq] at hok
      rcases hok with ⟨-, -, hs, -⟩
      refine ⟨?_, ?_, ?_, ?_⟩
      · rw [← hs]
        exact aux_loss_scores_nonneg hE
      · intro _ _ hmrt
        rw [← hs]
        refine ⟨(softmax_f32 E ((apply_input_jitter st jo (apply_z_loss st.config
            (viewT st.config.num_moe_experts logits0)).2).2.2)).data, ?_, ?_⟩
        · intro prow hprow
          rcases List.mem_map.mp hprow with ⟨lrow, hlrow, rfl⟩
          apply softmaxRow_sum_one hE
          apply List.ne_nil_of_length_pos
          rw [hlen3 lrow hlrow]
          exact hN
        · simp only [aux_loss_load_balancing, hmrt, apply_aux_loss]
          rfl
      · simp
      · simp
    | btx =>
      simp only [routing, hrt, hat, Prod.mk.injEq, Except.ok.injEq] at hok
      rcases hok with ⟨-, -, hs, -⟩
      refine ⟨?_, ?_, ?_, ?_⟩
      · rw [← hs]
        exact softmax_f32_nonneg hE _
      · simp
      · simp
      · simp
    | btx_nograd =>
      simp only [routing, hrt, hat, Prod.mk.injEq, Except.ok.injEq] at hok
      rcases hok with ⟨-, -, hs, -⟩
      refine ⟨?_, ?_, ?_, ?_⟩
      · rw [← hs]
        exact softmax_f32_nonneg hE _
      · simp
      · simp
      · simp
  | sinkhorn =>
    cases hsk : sinkhorn_load_balancing E sink st.config training st.topk
        ((apply_input_jitter st jo
          (apply_z_loss st.config
            (viewT st.config.num_moe_experts logits0)).2).2.2) with
    | error e => simp [routing, hrt, hsk] at hok
    | ok si =>
      rcases si with ⟨s2, i2⟩
      simp only [routing, hrt, hsk, Prod.mk.injEq, Except.ok.injEq] at hok
      rcases hok with ⟨-, -, hs, -⟩
      refine ⟨?_, ?_, ?_, ?_⟩
      · rw [← hs]
        exact sinkhorn_scores_nonneg hE hsk
      · simp
      · simp
      · simp

/-- C7 counterexample: under the sigmoid strategy the weights are drawn
from the elementwise sigmoid vector, which need not sum to 1 before top-k
truncation — for the all-zero three-expert row it sums to 3/2. -/
theorem sigmoid_generating_sum_counterexample :
    (sigmoid_load_balancing modelExp lossF0 cfgSig3 false 1 moF logits30).1
      = (topkT (sigmoidT modelExp logits30) 1).1
    ∧ (sigmoidT modelExp logits30).data.map List.sum = [3/2]
    ∧ (3/2 : ℚ) ≠ 1 := by
  refine ⟨by decide, by decide, by decide⟩

/-- Witness for (amended) C7 at a concrete plain top-k run. -/
theorem weights_nonneg_and_normalization_witness :
    MatNonneg ({ data := [[1]], dtype := DType.f16, reqGrad := true }
      : MTensor).data
    ∧ (∀ r ∈ ({ data := [[1]], dtype := DType.f16, reqGrad := true }
        : MTensor).data, r.sum = 1) :=
  ⟨(weights_nonneg_and_normalization modelExp id lossF0 stNone true jo1 moF
      logits21 { data := [[1]], dtype := DType.f16, reqGrad := true } [[1]]
      stNone [Ev.ev_strategy] modelExp_pos (by decide) (by decide)
      (by decide)).1,
   (weights_nonneg_and_normalization modelExp id lossF0 stNone true jo1 moF
      logits21 { data := [[1]], dtype := DType.f16, reqGrad := true } [[1]]
      stNone [Ev.ev_strategy] modelExp_pos (by decide) (by decide)
      (by decide)).2.2.1 rfl⟩

/-- `cfgNone` with the BTX(no-grad) aux-loss variant configured. -/
def cfgBtx : TransformerConfig :=
  { cfgNone with
      moe_router_load_balancing_type := RoutingType.aux_loss
      moe_aux_loss_type := AuxLossType.btx_nograd
      moe_aux_loss_coeff := 1/10 }

/-- C8: under the BTX aux-loss variant, the weights are the 32-bit softmax
of the top-k raw logits cast back to the logits dtype, and the attached
auxiliary loss equals `coeff * N * mean₀(scattered) ⬝ mean₀(probs)`, where
`scattered` places the top-k softmax values back into their original expert
positions in a zero tensor (pointwise: position `j` holds the `p`-th top-k
softmax value when `j` is the `p`-th selected index, and zero otherwise)
and `probs` is the full 32-bit softmax; in the `btx_nograd` sub-mode only
the scatter-reconstruction is detached — the top-k selection and the
returned scores still carry the logits' gradient flag. -/
theorem btx_aux_loss_spec (E : ℚ → ℚ) (config : TransformerConfig)
    (topk : ℕ) (logits : MTensor) :
    (btx_aux_loss_load_balancing E config topk logits
      = (type_as (softmax_f32 E (topkT logits topk).1) logits,
         (topkT logits topk).2,
         config.moe_aux_loss_coeff * (config.num_moe_experts : ℚ) *
           dotQ
             (meanCol (btx_scattered config (softmax_f32 E logits)
               (topkT logits topk).2
               (softmax_f32 E (topkT logits topk).1)).data)
             (meanCol (softmax_f32 E logits).data)))
    ∧ (btx_aux_loss_load_balancing E config topk logits).1.dtype = logits.dtype
    ∧ (btx_aux_loss_load_balancing E config topk logits).1.reqGrad
        = logits.reqGrad
    ∧ (topkT logits topk).1.reqGrad = logits.reqGrad
    ∧ (config.moe_aux_loss_type = AuxLossType.btx_nograd →
        (btx_scattered config (softmax_f32 E logits) (topkT logits topk).2
          (softmax_f32 E (topkT logits topk).1)).reqGrad = false)
    ∧ (config.moe_aux_loss_type = AuxLossType.btx →
        (btx_scattered config (softmax_f32 E logits) (topkT logits topk).2
          (softmax_f32 E (topkT logits topk).1)).reqGrad = logits.reqGrad)
    ∧ (∀ r : ℕ, (hr : r < logits.data.length) → ∀ j : ℕ,
        ((btx_scattered config (softmax_f32 E logits) (topkT logits topk).2
            (softmax_f32 E (topkT logits topk).1)).data.getD r []).getD j 0
          = match findPos j (topkIdxRow logits.data[r] topk) with
            | some p => (softmaxRow E (topkValRow logits.data[r] topk)).getD p 0
            | none => 0) := by
  refine ⟨rfl, rfl, rfl, rfl, ?_, ?_, ?_⟩
  · intro hat
    simp [btx_scattered, hat, detachT]
  · intro hat
    simp [btx_scattered, hat, scatterT, zerosLike, softmax_f32, topkT]
  · intro r hr j
    have hzlen : (zerosLike (softmax_f32 E logits)).data.length
        = logits.data.length := by
      simp [zerosLike, softmax_f32]
    have hb : (btx_scattered config (softmax_f32 E logits)
        (topkT logits topk).2 (softmax_f32 E (topkT logits topk).1)).data
      = (scatterT (zerosLike (softmax_f32 E logits)) (topkT logits topk).2
          (softmax_f32 E (topkT logits topk).1)).data := by
      by_cases hat : config.moe_aux_loss_type = AuxLossType.btx_nograd <;>
        simp [btx_scattered, hat, detachT]
    have hrow : (scatterT (zerosLike (softmax_f32 E logits))
          (topkT logits topk).2
          (softmax_f32 E (topkT logits topk).1)).data.getD r []
        = scatterRow ((zerosLike (softmax_f32 E logits)).data.getD r [])
            ((topkT logits topk).2.getD r [])
            ((softmax_f32 E (topkT logits topk).1).data.getD r []) := by
      simp only [scatterT]
      exact getD_range_map _ (by rw [hzlen]; exact hr) _
    have hzrow : (zerosLike (softmax_f32 E logits)).data.getD r []
        = (softmaxRow E logits.data[r]).map (fun _ => (0:ℚ)) := by
      simp only [zerosLike, softmax_f32, List.map_map]
      exact getD_map' _ _ hr _
    have hidxrow : (topkT logits topk).2.getD r []
        = topkIdxRow logits.data[r] topk := by
      simp only [topkT]
      exact getD_map' _ _ hr _
    have hvrow : (softmax_f32 E (topkT logits topk).1).data.getD r []
        = softmaxRow E (topkValRow logits.data[r] topk) := by
      simp only [softmax_f32, topkT, List.map_map]
      exact getD_map' _ _ hr _
    rw [hb, hrow, hzrow, hidxrow, hvrow]
    have hnd := topkIdxRow_nodup (logits.data[r]) topk
    have hlenv : (softmaxRow E (topkValRow logits.data[r] topk)).length
        = (topkIdxRow logits.data[r] topk).length := by
      rw [softmaxRow_length, topkValRow_length, topkIdxRow_length]
    have hbound : ∀ i ∈ topkIdxRow logits.data[r] topk,
        i < ((softmaxRow E logits.data[r]).map (fun _ => (0:ℚ))).length := by
      intro i hi
      rw [List.length_map, softmaxRow_length]
      exact topkIdxRow_mem_lt _ hi
    rw [scatterRow_getD hnd hlenv hbound]
    cases hf : findPos j (topkIdxRow logits.data[r] topk) with
    | none =>
      simp only [hf]
      exact zeroRow_getD _ _
    | some p =>
      simp only [hf]

/-- Witness for C8 at a concrete BTX(no-grad) call. -/
theorem btx_aux_loss_spec_witness :
    cfgBtx.moe_aux_loss_type = AuxLossType.btx_nograd ∧
    (btx_scattered cfgBtx (softmax_f32 modelExp logits21)
        (topkT logits21 1).2
        (softmax_f32 modelExp (topkT logits21 1).1)).reqGrad = false :=
  ⟨rfl, (btx_aux_loss_spec modelExp cfgBtx 1 logits21).2.2.2.2.1 rfl⟩

lemma sinkhorn_activation_dtype {E : ℚ → ℚ} {topk : ℕ} {logits : MTensor} :
    (sinkhorn_activation E topk logits).dtype = logits.dtype := by
  by_cases h1 : topk = 1 <;> simp [sinkhorn_activation, h1, sigmoidT, type_as]

lemma sinkhorn_scores_dtype {E : ℚ → ℚ} {sink : Mat → Mat}
    {config : TransformerConfig} {training : Bool} {topk : ℕ}
    {logits scores : MTensor} {indices : List (List ℕ)}
    (h : sinkhorn_load_balancing E sink config training topk logits
          = Except.ok (scores, indices)) : scores.dtype = logits.dtype := by
  by_cases hc : config.moe_aux_loss_coeff = 0
  · cases training with
    | false =>
      simp only [sinkhorn_load_balancing, hc, if_true, Bool.false_eq_true,
        if_false, Except.ok.injEq, Prod.mk.injEq] at h
      rcases h with ⟨hs, -⟩
      rw [← hs]
      exact sinkhorn_activation_dtype
    | true =>
      simp only [sinkhorn_load_balancing, hc, if_true, Except.ok.injEq,
        Prod.mk.injEq] at h
      rcases h with ⟨hs, -⟩
      rw [← hs]
      exact sinkhorn_activation_dtype
  · simp [sinkhorn_load_balancing, hc] at h

lemma dispatch_dtype_none (st : TopKRouterState) (jo : ℕ → ℕ → ℚ)
    (logits0 : MTensor) (heps : st.config.moe_input_jitter_eps = none) :
    ((apply_input_jitter st jo (apply_z_loss st.config
      (viewT st.config.num_moe_experts logits0)).2).2.2).dtype
      = logits0.dtype := by
  rw [apply_z_loss_snd]
  simp [apply_input_jitter, heps, viewT]

lemma dispatch_dtype_some (st : TopKRouterState) (jo : ℕ → ℕ → ℚ)
    (logits0 : MTensor) (e : ℚ)
    (heps : st.config.moe_input_jitter_eps = some e) :
    ((apply_input_jitter st jo (apply_z_loss st.config
      (viewT st.config.num_moe_experts logits0)).2).2.2).dtype
      = promoteWithF32 logits0.dtype := by
  rw [apply_z_loss_snd]
  simp [apply_input_jitter, heps, jitterMul, viewT]

/-- An aux-loss/grouped configuration over two experts in one group. -/
def cfgGrp : TransformerConfig :=
  { cfgNone with
      moe_router_load_balancing_type := RoutingType.aux_loss
      moe_router_type := RouterType.grouped }

/-- Router state built from `cfgGrp`. -/
def stGrp : TopKRouterState where
  config := cfgGrp
  topk := 1
  routing_type := RoutingType.aux_loss
  input_jitter := false

/-- C9 (amended): every probability distribution used for a loss term or
balancing normalization is produced by the 32-bit softmax operation (the
st-style path then casts it back to the ambient dtype before use).  The
returned weights keep the dtype of the input logits only when no input
jitter is configured and the strategy is not the grouped aux-loss variant:
the grouped variant returns its weights (and probabilities) in 32-bit with
no cast back, and a configured jitter multiplies the logits by a float32
sample, promoting every reduced-precision input — so with jitter every
strategy returns weights in the f32-promoted dtype. -/
theorem dtype_discipline
    (E : ℚ → ℚ) (sink : Mat → Mat) (lossF : Mat → List (List ℕ) → ℚ → ℚ)
    (st : TopKRouterState) (training : Bool) (jo : ℕ → ℕ → ℚ)
    (mo : ℕ → ℕ → Bool) (logits0 scores : MTensor)
    (indices : List (List ℕ)) (st1 : TopKRouterState) (evs : List Ev)
    (hok : routing E sink lossF st training jo mo logits0
        = (st1, evs, Except.ok (scores, indices))) :
    (st.config.moe_input_jitter_eps = none →
      ¬(st.routing_type = RoutingType.aux_loss
          ∧ st.config.moe_aux_loss_type = AuxLossType.switch
          ∧ st.config.moe_router_type = RouterType.grouped) →
      scores.dtype = logits0.dtype)
    ∧ (∀ e : ℚ, st.config.moe_input_jitter_eps = some e →
        ¬(st.routing_type = RoutingType.aux_loss
            ∧ st.config.moe_aux_loss_type = AuxLossType.switch
            ∧ st.config.moe_router_type = RouterType.grouped) →
        scores.dtype = promoteWithF32 logits0.dtype)
    ∧ (st.routing_type = RoutingType.aux_loss →
        st.config.moe_aux_loss_type = AuxLossType.switch →
        st.config.moe_router_type = RouterType.grouped →
        scores.dtype = DType.f32)
    ∧ (∀ (config : TransformerConfig) (topk : ℕ) (mo2 : ℕ → ℕ → Bool)
        (training2 : Bool) (logits : MTensor),
        (sigmoid_load_balancing E lossF config training2 topk mo2
          logits).2.2.lossProbs.dtype = DType.f32)
    ∧ (∀ (config : TransformerConfig) (topk : ℕ) (logits : MTensor),
        config.moe_router_type = RouterType.st →
        (aux_loss_load_balancing E lossF config topk logits).2.2.lossProbs
          = type_as (softmax_f32 E logits) logits)
    ∧ (∀ (config : TransformerConfig) (topk : ℕ) (logits : MTensor),
        config.moe_router_type = RouterType.mixtral →
        (aux_loss_load_balancing E lossF config topk
          logits).2.2.lossProbs.dtype = DType.f32)
    ∧ (∀ (logits : MTensor) (n k g : ℕ),
        (grouped_router E logits n k g).1.dtype = DType.f32
        ∧ (grouped_router E logits n k g).2.1.dtype = DType.f32) := by
  have hcore : ¬(st.routing_type = RoutingType.aux_loss
      ∧ st.config.moe_aux_loss_type = AuxLossType.switch
      ∧ st.config.moe_router_type = RouterType.grouped) →
      scores.dtype = ((apply_input_jitter st jo (apply_z_loss st.config
        (viewT st.config.num_moe_experts logits0)).2).2.2).dtype := by
    intro hnot
    cases hrt : st.routing_type with
    | rt_none =>
      simp only [routing, hrt, Prod.mk.injEq, Except.ok.injEq] at hok
      rcases hok with ⟨-, -, hs, -⟩
      rw [← hs]
      rfl
    | sigmoid =>
      simp only [routing, hrt, Prod.mk.injEq, Except.ok.injEq] at hok
      rcases hok with ⟨-, -, hs, -⟩
      rw [← hs]
      simp only [sigmoid_load_balancing, apply_aux_loss, topkT, sigmoidT]
      split
      · rfl
      · rfl
    | sinkhorn =>
      cases hsk : sinkhorn_load_balancing E sink st.config training st.topk
          ((apply_input_jitter st jo
            (apply_z_loss st.config
              (viewT st.config.num_moe_experts logits0)).2).2.2) with
      | error e => simp [routing, hrt, hsk] at hok
      | ok si =>
        rcases si with ⟨s2, i2⟩
        simp only [routing, hrt, hsk, Prod.mk.injEq, Except.ok.injEq] at hok
        rcases hok with ⟨-, -, hs, -⟩
        rw [← hs]
        exact sinkhorn_scores_dtype hsk
    | aux_loss =>
      cases hat : st.config.moe_aux_loss_type with
      | btx =>
        simp only [routing, hrt, hat, Prod.mk.injEq, Except.ok.injEq] at hok
        rcases hok with ⟨-, -, hs, -⟩
        rw [← hs]
        rfl
      | btx_nograd =>
        simp only [routing, hrt, hat, Prod.mk.injEq, Except.ok.injEq] at hok
        rcases hok with ⟨-, -, hs, -⟩
        rw [← hs]
        rfl
      | switch =>
        cases hmrt : st.config.moe_router_type with
        | grouped => exact absurd ⟨hrt, hat, hmrt⟩ hnot
        | mixtral =>
          simp only [routing, hrt, hat, Prod.mk.injEq, Except.ok.injEq] at hok
          rcases hok with ⟨-, -, hs, -⟩
          rw [← hs]
          simp only [aux_loss_load_balancing, hmrt, apply_aux_loss]
          rfl
        | st =>
          simp only [routing, hrt, hat, Prod.mk.injEq, Except.ok.injEq] at hok
          rcases hok with ⟨-, -, hs, -⟩
          rw [← hs]
          simp only [aux_loss_load_balancing, hmrt, apply_aux_loss]
          rfl
  refine ⟨?_, ?_, ?_, ?_, ?_, ?_, ?_⟩
  · intro heps hnot
    rw [hcore hnot]
    exact dispatch_dtype_none st jo logits0 heps
  · intro e heps hnot
    rw [hcore hnot]
    exact dispatch_dtype_some st jo logits0 e heps
  · intro hrt hat hmrt
    simp only [routing, hrt, hat, Prod.mk.injEq, Except.ok.injEq] at hok
    rcases hok with ⟨-, -, hs, -⟩
    rw [← hs]
    simp [aux_loss_load_balancing, hmrt, apply_aux_loss, grouped_router,
      softmax_f32]
  · intro config topk mo2 training2 logits
    rfl
  · intro config topk logits h
    simp [aux_loss_load_balancing, h, apply_aux_loss]
  · intro config topk logits h
    simp [aux_loss_load_balancing, h, apply_aux_loss, softmax_f32]
  · intro logits n k g
    exact ⟨rfl, rfl⟩

/-- C9 counterexample: with half-precision logits, the grouped aux-loss
path returns its weights in 32-bit — the dtype of the returned scores is
`f32`, not the input dtype `f16`. -/
theorem grouped_dtype_counterexample :
    (routing modelExp id lossF0 stGrp true jo1 moF logits21).2.2
      = Except.ok
          ({ data := [[3/5]], dtype := DType.f32, reqGrad := true }, [[1]])
    ∧ DType.f32 ≠ logits21.dtype := by
  refine ⟨by decide, by decide⟩

/-- Witness for (amended) C9: a jitter-free plain top-k run keeps the f16
input dtype, and a jitter-configured run returns the f32-promoted dtype. -/
theorem dtype_discipline_witness :
    ({ data := [[1]], dtype := DType.f16, reqGrad := true } : MTensor).dtype
      = logits21.dtype
    ∧ ({ data := [[1]], dtype := DType.f32, reqGrad := true } : MTensor).dtype
      = promoteWithF32 logits21.dtype :=
  ⟨(dtype_discipline modelExp id lossF0 stNone true jo1 moF logits21
      { data := [[1]], dtype := DType.f16, reqGrad := true } [[1]] stNone
      [Ev.ev_strategy] (by decide)).1 rfl (by decide),
   (dtype_discipline modelExp id lossF0 stJit false joC moF logits21
      { data := [[1]], dtype := DType.f32, reqGrad := true } [[0]]
      { stJit with input_jitter := true } [Ev.ev_jitter, Ev.ev_strategy]
      (by decide)).2.1 (1/2) rfl (by decide)⟩

/-- C10: constructing a `TopKRouter` with `moe_token_dropping` set always
fails with an assertion error before any routing field is populated;
with it unset, construction succeeds for every routing type and copies
`topk`/`routing_type` from the configuration, so every reachable state
satisfies `moe_token_dropping = false`. -/
theorem topkrouter_init_token_dropping (config : TransformerConfig) :
    (TopKRouter_init config = Except.error RtError.assertionError ↔
      config.moe_token_dropping = true)
    ∧ (config.moe_token_dropping = false →
        TopKRouter_init config = Except.ok
          { config := config
            topk := config.moe_router_topk
            routing_type := config.moe_router_load_balancing_type
            input_jitter := false })
    ∧ (∀ st, TopKRouter_init config = Except.ok st →
        st.config.moe_token_dropping = false) := by
  cases h : config.moe_token_dropping with
  | false =>
    refine ⟨by simp [TopKRouter_init, h], fun _ => by simp [TopKRouter_init, h], ?_⟩
    intro st hst
    simp only [TopKRouter_init, h, if_true, Except.ok.injEq] at hst
    rw [← hst]
    exact h
  | true =>
    refine ⟨by simp [TopKRouter_init, h], by simp [h], ?_⟩
    intro st hst
    simp [TopKRouter_init, h] at hst

/-- Witness for C10 at the concrete configuration `cfgNone`. -/
theorem topkrouter_init_token_dropping_witness :
    TopKRouter_init cfgNone = Except.ok
      { config := cfgNone
        topk := cfgNone.moe_router_topk
        routing_type := cfgNone.moe_router_load_balancing_type
        input_jitter := false } :=
  (topkrouter_init_token_dropping cfgNone).2.1 (by decide)

end MoERouter
